import Mathlib

/-!
Verification development for the slop-detector discovery-and-classification
pipeline.  The TypeScript sources are shallowly embedded: JS numbers that only
ever hold integers become `Nat`/`Int`, fractional arithmetic becomes `Rat`,
JS `Set` (insertion ordered) becomes a duplicate-free `List` built with
`setAdd`, external collaborators (YouTube API, database, Gemini, the wall
clock `Date.now`) become oracle fields of an environment structure, and the
unbounded `while` loop of the ingestion task runs on explicit fuel (every
property proved is a safety property, so it holds for every fuel value).
-/

/-! ## JS string helpers -/

/-- Whether `pat` occurs at the head of `l` (character-exact). -/
def leadsWith : List Char → List Char → Bool
  | [], _ => true
  | _ :: _, [] => false
  | p :: ps, c :: cs => p = c && leadsWith ps cs

/-- Whether `pat` occurs as a contiguous subsequence of `l`
(JS `String.prototype.includes`). -/
def containsSeq (pat : List Char) : List Char → Bool
  | [] => pat.isEmpty
  | c :: cs => leadsWith pat (c :: cs) || containsSeq pat cs

/-- JS `s.includes(pat)`. -/
def strIncludes (s pat : String) : Bool :=
  containsSeq pat.toList s.toList

/-- ASCII lowercasing of one character (the keywords compared against are
ASCII, so JS `toLowerCase` agrees with this on every relevant character). -/
def jsToLowerChar (c : Char) : Char :=
  if 'A' ≤ c ∧ c ≤ 'Z' then Char.ofNat (c.toNat + 32) else c

/-- JS `s.toLowerCase()`. -/
def jsToLower (s : String) : String :=
  ⟨s.toList.map jsToLowerChar⟩

/-- The whitespace characters relevant to the embedded regexes and `trim`. -/
def isJsSpace (c : Char) : Bool :=
  c = ' ' || c = '\t' || c = '\n' || c = '\r'

/-- JS `String.prototype.trim` (on the whitespace characters above). -/
def jsTrim (s : String) : String :=
  ⟨((s.toList.dropWhile isJsSpace).reverse.dropWhile isJsSpace).reverse⟩

/-- JS `Math.round`: round half towards positive infinity. -/
def jsRound (q : ℚ) : ℤ := ⌊q + 1 / 2⌋

/-- The `len || 1` denominator guard used by the classifier's averages
(`0` is falsy in JS, every other count is truthy). -/
def jsDenom (len : ℕ) : ℚ := if len = 0 then 1 else (len : ℚ)

/-! ## Raw provider data

`YouTubeChannel` is the shape produced by `YouTubeChannelSchema` in
`packages/shared/src/schemas.ts` (statistics already converted to numbers,
`subscriberCount` defaulting to 0) plus the optional fields the normalizer
reads.  Date strings are embedded as millisecond timestamps, standing for
`new Date(s).getTime()`.  `RawVideo` is the enriched shape returned by
`fetchRecentVideos`. -/

structure YouTubeChannel where
  id : String
  title : String
  description : String
  publishedAtMs : ℤ
  thumbnailUrl : Option String
  /-- `raw.snippet.categoryId`: not part of the channel schema, so usually
  absent; the normalizer still reads it as a fallback. -/
  categoryId : Option String
  viewCount : ℕ
  subscriberCount : ℕ
  videoCount : ℕ
  /-- `channel.contentDetails?.relatedPlaylists?.uploads`. -/
  uploads : Option String
deriving Repr, DecidableEq

structure RawVideo where
  id : String
  title : String
  publishedAtMs : ℤ
  isMadeForKids : Option Bool
  tags : Option (List String)
  duration : Option String
  viewCount : Option String
  categoryId : Option String
deriving Repr, DecidableEq

/-- The per-video record kept on a `NormalizedChannel`
(`recentVideos.map(v => ({id, title, publishedAt, tags, duration, viewCount}))`). -/
structure RecentVideo where
  id : String
  title : String
  publishedAtMs : ℤ
  tags : Option (List String)
  duration : Option String
  viewCount : Option String
deriving Repr, DecidableEq

structure NormalizedChannel where
  channelId : String
  title : String
  description : String
  publishedAtMs : ℤ
  thumbnailUrl : Option String
  latestVideoId : Option String
  categoryId : Option String
  videoCount : ℕ
  subscriberCount : ℕ
  viewCount : ℕ
  velocity : ℚ
  recentVelocity : ℚ
  ageInDays : ℤ
  viewsPerSub : ℚ
  recentVideos : List RecentVideo
  isMadeForKids : Bool
deriving Repr, DecidableEq

/-! ## The metric normalizer (`normalizeChannel`) -/

/-- First-occurrence deduplication, the key order of the JS `categoryCount`
object literal. -/
def firstDedup : List String → List String
  | [] => []
  | x :: xs => x :: firstDedup (xs.filter (fun y => y ≠ x))
termination_by l => l.length
decreasing_by
  simp only [List.length_cons]
  exact Nat.lt_succ_of_le (List.length_filter_le _ _)

/-- Number of occurrences of `c` in `categories` (`categoryCount[c]`). -/
def countOcc (categories : List String) (c : String) : ℕ :=
  (categories.filter (fun d => d = c)).length

/-- `Object.entries(categoryCount).sort((a,b) => b[1]-a[1])[0]?.[0]`: the
earliest-inserted key of maximal count (V8's sort is stable). -/
def dominantCategory (categories : List String) : Option String :=
  (firstDedup categories).foldl
    (fun best c =>
      match best with
      | none => some c
      | some b => if countOcc categories c > countOcc categories b then some c else best)
    none

/-- `normalizeChannel` from the shared package.  `now` stands for the
`new Date()` read at call time. -/
def normalizeChannel (raw : YouTubeChannel) (recentVideos : List RawVideo)
    (latestVideoId : Option String) (now : ℤ) : NormalizedChannel :=
  let ageInDays : ℤ := max 1 (Int.fdiv (now - raw.publishedAtMs) 86400000)
  let videoCount := raw.videoCount
  -- `raw.statistics.subscriberCount || 1` (avoid division by zero)
  let subscriberCount : ℕ := if raw.subscriberCount = 0 then 1 else raw.subscriberCount
  let viewCount := raw.viewCount
  let twoWeeksAgo : ℤ := now - 14 * 86400000
  let recentUploads := recentVideos.filter (fun v => twoWeeksAgo < v.publishedAtMs)
  let isMadeForKids := recentVideos.any (fun v => v.isMadeForKids = some true)
  let recentDivisor : ℤ := min ageInDays 14
  let recentVelocity : ℚ := (recentUploads.length : ℚ) / ((max 1 recentDivisor : ℤ) : ℚ)
  -- `.map(v => v.categoryId).filter(Boolean)` (drops undefined and "")
  let categories := (recentVideos.filterMap (fun v => v.categoryId)).filter (fun c => c ≠ "")
  { channelId := raw.id
    title := raw.title
    description := raw.description
    publishedAtMs := raw.publishedAtMs
    thumbnailUrl := raw.thumbnailUrl
    latestVideoId := latestVideoId
    -- `dominantCategory || raw.snippet.categoryId` ("" never survives the filter)
    categoryId :=
      match dominantCategory categories with
      | some c => some c
      | none => raw.categoryId
    videoCount := videoCount
    subscriberCount := subscriberCount
    viewCount := viewCount
    velocity := (videoCount : ℚ) / ((ageInDays : ℤ) : ℚ)
    recentVelocity := recentVelocity
    ageInDays := ageInDays
    viewsPerSub := (viewCount : ℚ) / (subscriberCount : ℚ)
    recentVideos := recentVideos.map (fun v =>
      { id := v.id, title := v.title, publishedAtMs := v.publishedAtMs
        tags := v.tags, duration := v.duration, viewCount := v.viewCount })
    isMadeForKids := isMadeForKids }

/-! ## Classification results

The shape of the duck-typed result objects of
`apps/jobs/src/trigger/lib/classifier.ts` (the later of the two revisions in
that file, the one the ingestion task imports).  Fields that some code paths
omit (JS `undefined`) are `Option`s set to `none` on those paths.
`classification` and `method` stay `String`s because the AI path copies
whatever string the parsed JSON holds. -/

structure Metrics where
  velocity : ℚ
  ageInDays : ℤ
  viewsPerSub : ℚ
  videoCount : ℕ
  subscriberCount : ℕ
  viewCount : ℕ
  isMadeForKids : Bool
  /-- present in the rule-path `getMetrics`, absent from the AI-path literals -/
  categoryId : Option (Option String)
deriving Repr, DecidableEq

structure NlpSignals where
  hasSpamKeywords : Bool
  templatedTitles : Bool
  genericDescription : Bool
  contentType : Option String
deriving Repr, DecidableEq

structure BehaviorSignals where
  highVelocity : Bool
  deadEngagement : Bool
  newOperation : Bool
deriving Repr, DecidableEq

structure AiAnalysis where
  reasoning : String
  nlpSignals : NlpSignals
  behaviorSignals : BehaviorSignals
deriving Repr, DecidableEq

structure ClassificationResult where
  channelId : String
  title : String
  description : Option String
  thumbnailUrl : Option String
  classification : String
  confidence : ℚ
  slopScore : ℚ
  slopType : Option String
  method : String
  metrics : Metrics
  aiAnalysis : Option AiAnalysis
  reasons : List String
  recentVideos : List String
  latestVideoId : Option String
deriving Repr, DecidableEq

/-! ## Rule-based classification (`classifyByRules`) -/

/-- `getMetrics` (rule-path version, with `categoryId`). -/
def getMetrics (ch : NormalizedChannel) : Metrics :=
  { velocity := ch.velocity
    ageInDays := ch.ageInDays
    viewsPerSub := ch.viewsPerSub
    videoCount := ch.videoCount
    subscriberCount := ch.subscriberCount
    viewCount := ch.viewCount
    isMadeForKids := ch.isMadeForKids
    categoryId := some ch.categoryId }

/-- The shared fields every rule branch spells out (`getBaseResult`; the
branches that write them inline list exactly the same fields). -/
def ruleResult (ch : NormalizedChannel) (classification : String) (confidence slopScore : ℚ)
    (slopType : Option String) (reasons : List String) : ClassificationResult :=
  { channelId := ch.channelId
    title := ch.title
    description := some ch.description
    thumbnailUrl := ch.thumbnailUrl
    classification := classification
    confidence := confidence
    slopScore := slopScore
    slopType := slopType
    method := "rule"
    metrics := getMetrics ch
    aiAnalysis := none
    reasons := reasons
    recentVideos := ch.recentVideos.map (fun v => v.title)
    latestVideoId := ch.latestVideoId }

/-- Digits of a decimal numeral to a number (`parseInt` on a digit string). -/
def digitsToNat (ds : List Char) : ℕ :=
  ds.foldl (fun n c => n * 10 + (c.toNat - '0'.toNat)) 0

/-- The tail right after the first occurrence of `PT`, if any
(where the regex `/PT(?:(\d+)M)?(?:(\d+)S)?/` anchors: both groups being
optional, the regex matches at the first literal `PT`). -/
def findPT : List Char → Option (List Char)
  | [] => none
  | c :: cs =>
    if c = 'P' ∧ cs.head? = some 'T' then some cs.tail else findPT cs

/-- The two optional capture groups `(\d+)M` and `(\d+)S` after `PT`;
an unmatched group contributes `parseInt("0") = 0`. -/
def matchMinSec (cs : List Char) : ℕ × ℕ :=
  let p1 := cs.span (fun c => c.isDigit)
  let mRest := if p1.1 ≠ [] ∧ p1.2.head? = some 'M' then (digitsToNat p1.1, p1.2.tail) else (0, cs)
  let p2 := mRest.2.span (fun c => c.isDigit)
  let secs := if p2.1 ≠ [] ∧ p2.2.head? = some 'S' then digitsToNat p2.1 else 0
  (mRest.1, secs)

/-- Seconds extracted from an ISO-8601-like duration by
`v.duration.match(/PT(?:(\d+)M)?(?:(\d+)S)?/)`: minutes and seconds only
(an hour component defeats both groups and yields 0). -/
def durationToSeconds (s : String) : ℕ :=
  match findPT s.toList with
  | none => 0
  | some rest => (matchMinSec rest).1 * 60 + (matchMinSec rest).2

/-- One video's contribution to the duration average
(`if (!v.duration) return acc` skips `undefined` and `""`). -/
def videoDurationSeconds (d : Option String) : ℕ :=
  match d with
  | none => 0
  | some s => if s = "" then 0 else durationToSeconds s

/-- `avgTags`: `reduce((acc, v) => acc + (v.tags?.length || 0), 0) / (len || 1)`. -/
def avgTags (ch : NormalizedChannel) : ℚ :=
  ((ch.recentVideos.map (fun v => (v.tags.getD []).length)).sum : ℚ)
    / jsDenom ch.recentVideos.length

/-- `avgDurationSeconds`. -/
def avgDurationSeconds (ch : NormalizedChannel) : ℚ :=
  ((ch.recentVideos.map (fun v => videoDurationSeconds v.duration)).sum : ℚ)
    / jsDenom ch.recentVideos.length

/-- Keyword scan over lowercased title and description. -/
def keywordHit (ch : NormalizedChannel) (ks : List String) : Bool :=
  ks.any (fun k =>
    strIncludes (jsToLower ch.title) k || strIncludes (jsToLower ch.description) k)

def slopArchetypeKeywords : List String :=
  ["banana", "satisfying", "slime", "skibidi", "toilet", "minecraft but",
   "toy play", "bad baby"]

def spamKeywords : List String :=
  ["lofi", "meditation", "rain", "frequency", "binaural", "study", "relaxing", "24/7"]

def alarmistKeywords : List String :=
  ["secret leaked", "election fraud", "breaking political", "government leak",
   "insider reveals", "martial law"]

/-- `(v.title.match(/#/g) || []).length >= 3`. -/
def hashtagCount (t : String) : ℕ :=
  (t.toList.filter (fun c => c = '#')).length

/-- Whether any leading run of whitespace is followed by the literal `#movie`
(the `\s*#movie` tail of the first regex alternative). -/
def hashMovieAfterWs (l : List Char) : Bool :=
  leadsWith "#movie".toList (l.dropWhile isJsSpace)

/-- The first alternative `".*"\s*#movie` of `/".*"\s*#movie|#show|#edit/i`
tested against a lowercased title: a quote, a newline-free span, a quote,
whitespace, `#movie`. -/
def quoteMoviePat (l : List Char) : Bool :=
  (List.range l.length).any (fun a =>
    l.get? a = some '"' &&
    (List.range l.length).any (fun b =>
      decide (a < b) && l.get? b = some '"' &&
      ((l.drop (a + 1)).take (b - (a + 1))).all (fun c => c ≠ '\n') &&
      hashMovieAfterWs (l.drop (b + 1))))

/-- `movieShowPattern.test(v.title)` for `/".*"\s*#movie|#show|#edit/i`. -/
def movieShowTest (title : String) : Bool :=
  let l := (jsToLower title).toList
  quoteMoviePat l || containsSeq "#show".toList l || containsSeq "#edit".toList l

/-- `classifyByRules` (later revision of `classifier.ts`): the ordered rule
cascade; `none` means "no rule matched, escalate to the AI". -/
def classifyByRules (ch : NormalizedChannel) : Option ClassificationResult :=
  -- 0. STRICT EXCLUSIONS (Safety First): Made for Kids = SLOP
  if ch.isMadeForKids then
    some (ruleResult ch "SLOP" 95 90 (some "kids_content")
      ["Channel is marked as 'Made for Kids' (Strict Exclusion Rule)"])
  else
  let tagsAvg := avgTags ch
  let durAvg := avgDurationSeconds ch
  let hasSlopArchetype := keywordHit ch slopArchetypeKeywords
  -- 0.5 SAFE PATH RULES: Major Authority
  if ch.subscriberCount > 5000000 ∧ tagsAvg > 3 ∧ durAvg > 45 ∧ ¬hasSlopArchetype then
    some (ruleResult ch "OKAY" 95 5 none
      ["Major established channel (>5M subscribers) with human effort indicators"])
  -- High Viral Engagement
  else if ch.viewsPerSub > 1000 ∧ ch.subscriberCount > 5000 ∧ tagsAvg > 4 ∧ ¬hasSlopArchetype then
    some (ruleResult ch "OKAY" 90 10 none
      ["Exceptional viral engagement (>1000 views/sub)"])
  -- Established Creator
  else if ch.ageInDays > 365 ∧ ch.videoCount > 100 ∧ ch.velocity < 1.0 ∧
      ch.subscriberCount > 10000 ∧ tagsAvg > 2 ∧ ¬hasSlopArchetype then
    some (ruleResult ch "OKAY" 85 15 none
      ["Established long-term creator (Age > 1yr, low velocity)"])
  -- 1. SLOP RULES: Extreme High Velocity
  else if ch.velocity > 10 ∧ ch.subscriberCount < 100000 then
    some (ruleResult ch "SLOP" 95 100 (some "templated_spam")
      ["Extreme high velocity (>10 videos/day) for a non-established channel"])
  -- High Velocity + Content Keywords
  else if ch.velocity > 5 ∧ keywordHit ch spamKeywords then
    some (ruleResult ch "SLOP" 90 90 (some "background_music")
      ["High velocity (>5/day) with spam keywords"])
  -- 4. POLITICAL SLOP RULES
  else if ch.categoryId = some "25" ∧ keywordHit ch alarmistKeywords ∧ ch.velocity > 3 then
    some (ruleResult ch "SLOP" 90 95 (some "political_slop")
      ["Deterministic Political Slop: News category with alarmist keywords and high velocity"])
  -- 5. VELOCITY GUARDRAILS
  else if ch.velocity > 8 ∧ ch.subscriberCount < 20000 then
    some (ruleResult ch "SUSPICIOUS" 85 70 (some "templated_spam")
      ["Extreme velocity (>8/day) with low subscriber base"])
  -- 6. PHASE 2: Zero Tags
  else if tagsAvg < 1 ∧ ch.subscriberCount < 50000 then
    some (ruleResult ch "SUSPICIOUS" 80 60 (some "templated_spam")
      ["Zero tags detected across recent videos (Average tags < 1)"])
  -- Engagement Gap
  else if ch.velocity > 2 ∧ ch.viewsPerSub < 0.1 ∧ ch.subscriberCount > 10000 then
    some (ruleResult ch "SLOP" 90 85 (some "templated_spam")
      ["Engagement Gap: High velocity with extremely low subscriber interest (< 0.1 views/sub)"])
  -- 7. PHASE 3: Shorts Churner
  else if durAvg < 65 ∧ tagsAvg < 1 ∧ ch.subscriberCount < 500000 then
    some (ruleResult ch "SUSPICIOUS" 85 75 (some "templated_spam")
      ["Shorts Churner pattern: Average duration < 65s with zero tags"])
  -- Hashtag Spam or Movie Clip pattern
  else if (ch.recentVideos.any (fun v => hashtagCount v.title ≥ 3) ∨
      ch.recentVideos.any (fun v => movieShowTest v.title)) ∧ ch.subscriberCount < 100000 then
    some (ruleResult ch "SUSPICIOUS" 80 65 (some "templated_spam")
      [if ch.recentVideos.any (fun v => hashtagCount v.title ≥ 3) then
        "Excessive hashtag usage in titles"
      else "Movie/Show clip re-upload pattern detected"])
  else
    none

/-! ## Retry with exponential backoff (`retryWithBackoff`) -/

/-- A thrown JS error as the retry helper inspects it: an optional numeric
`status` and a `message` (its `toString` rendering is embedded as the
message itself). -/
structure JsError where
  status : Option ℕ
  message : String
deriving Repr, DecidableEq

/-- The rate-limit test of `retryWithBackoff`: status 429 or 503, or a
message mentioning 429, 503, "quota" or "overloaded". -/
def isRateLimitErr (e : JsError) : Bool :=
  e.status = some 429 || e.status = some 503 ||
  strIncludes e.message "429" || strIncludes e.message "503" ||
  strIncludes e.message "quota" || strIncludes e.message "overloaded"

/-- The retry loop body: attempt `attempt` runs `f attempt`; a rate-limit
failure with retries remaining sleeps `baseDelay * 2 ^ attempt` ms and
recurses; any other failure (or exhausted retries) rethrows.  Returns the
outcome together with the list of backoff delays slept. -/
def retryAux (f : ℕ → Except JsError α) (baseDelay : ℕ) :
    ℕ → ℕ → Except JsError α × List ℕ
  | attempt, 0 =>
    (f attempt, [])
  | attempt, remaining + 1 =>
    match f attempt with
    | .ok v => (.ok v, [])
    | .error e =>
      if isRateLimitErr e then
        let next := retryAux f baseDelay (attempt + 1) remaining
        (next.1, baseDelay * 2 ^ attempt :: next.2)
      else
        (.error e, [])

/-- `retryWithBackoff(fn, maxRetries = 3, baseDelay = 2000)`: the `fn`
outcome per attempt index is the oracle `f`. -/
def retryWithBackoff (f : ℕ → Except JsError α) (maxRetries : ℕ := 3)
    (baseDelay : ℕ := 2000) : Except JsError α × List ℕ :=
  retryAux f baseDelay 0 maxRetries

/-! ## AI response handling (`classifyChannel`, slow path) -/

/-- `text.replace(/```json\n?|```/g, "")`: left-to-right, at each position
remove the longest-preferred alternative (` ```json `) with an optional
newline, else a bare fence. -/
def stripFencesAux : List Char → List Char
  | [] => []
  | c :: cs =>
    if leadsWith "```json\n".toList (c :: cs) then stripFencesAux ((c :: cs).drop 8)
    else if leadsWith "```json".toList (c :: cs) then stripFencesAux ((c :: cs).drop 7)
    else if leadsWith "```".toList (c :: cs) then stripFencesAux ((c :: cs).drop 3)
    else c :: stripFencesAux cs
termination_by l => l.length
decreasing_by
  all_goals simp only [List.length_drop, List.length_cons]
  all_goals omega

def stripFences (s : String) : String :=
  ⟨stripFencesAux s.toList⟩

/-- The JSON object `classifyChannel` expects back from the model.
`confidence`/`slopScore` are `none` when the parsed object lacks the field
(JS `undefined`, absorbed by the `|| 0` guard). -/
structure ParsedAiResponse where
  classification : String
  confidence : Option ℚ
  slopScore : Option ℚ
  slopType : Option String
  reasoning : String
  nlpSignals : NlpSignals
  behaviorSignals : BehaviorSignals
deriving Repr, DecidableEq

/-- `Math.round((x <= 1 ? x * 100 : x) || 0)`: a fractional value (≤ 1) is
rescaled to 0–100; an absent value (`undefined ≤ 1` is false, then
`undefined || 0`) becomes 0. -/
def rescaleTo100 (v : Option ℚ) : ℚ :=
  match v with
  | none => 0
  | some x => (jsRound (if x ≤ 1 then x * 100 else x) : ℚ)

/-- The external collaborators of the AI path: `model.generateContent`'s
outcome per attempt index (the prompt is fixed within one call), and
`JSON.parse` (`.error` carries the `SyntaxError` rendering). -/
structure AiEnv where
  gen : ℕ → Except JsError String
  jsonParse : String → Except String ParsedAiResponse

/-- The metrics literal of the AI path (no `categoryId` key). -/
def aiMetrics (ch : NormalizedChannel) : Metrics :=
  { velocity := ch.velocity
    ageInDays := ch.ageInDays
    viewsPerSub := ch.viewsPerSub
    videoCount := ch.videoCount
    subscriberCount := ch.subscriberCount
    viewCount := ch.viewCount
    isMadeForKids := ch.isMadeForKids
    categoryId := none }

/-- The fixed fallback of the `catch` block ("Fallback to suspicious if AI
fails"); its object literal has no `description` or `thumbnailUrl` key. -/
def aiFallback (ch : NormalizedChannel) (errMsg : String) : ClassificationResult :=
  { channelId := ch.channelId
    title := ch.title
    description := none
    thumbnailUrl := none
    classification := "SUSPICIOUS"
    confidence := 50
    slopScore := 50
    slopType := none
    method := "ai"
    metrics := aiMetrics ch
    aiAnalysis := none
    reasons := ["AI classification failed: " ++ errMsg]
    recentVideos := ch.recentVideos.map (fun v => v.title)
    latestVideoId := ch.latestVideoId }

/-- The result built from a successfully parsed model response. -/
def aiSuccess (ch : NormalizedChannel) (p : ParsedAiResponse) : ClassificationResult :=
  { channelId := ch.channelId
    title := ch.title
    description := some ch.description
    thumbnailUrl := ch.thumbnailUrl
    classification := p.classification
    confidence := rescaleTo100 p.confidence
    slopScore := rescaleTo100 p.slopScore
    slopType := p.slopType
    method := "ai"
    metrics := aiMetrics ch
    aiAnalysis := some { reasoning := p.reasoning, nlpSignals := p.nlpSignals,
                         behaviorSignals := p.behaviorSignals }
    reasons := [p.reasoning]
    recentVideos := ch.recentVideos.map (fun v => v.title)
    latestVideoId := ch.latestVideoId }

/-- Whether the slow path called the model, and the backoff delays slept. -/
structure AiCallInfo where
  invoked : Bool
  delays : List ℕ
deriving Repr, DecidableEq

/-- The slow path of `classifyChannel`: retry `generateContent`, strip code
fences, trim, parse; any failure falls into the `catch` fallback. -/
def aiClassify (env : AiEnv) (ch : NormalizedChannel) : ClassificationResult × AiCallInfo :=
  let attempt := retryWithBackoff env.gen 3 2000
  match attempt.1 with
  | .error e => (aiFallback ch e.message, ⟨true, attempt.2⟩)
  | .ok text =>
    match env.jsonParse (jsTrim (stripFences text)) with
    | .error msg => (aiFallback ch msg, ⟨true, attempt.2⟩)
    | .ok parsed => (aiSuccess ch parsed, ⟨true, attempt.2⟩)

/-- `classifyChannel(channel, options?)`: fast path through the rules unless
`forceAi`, else the AI slow path. -/
def classifyChannel (env : AiEnv) (ch : NormalizedChannel) (forceAi : Bool) :
    ClassificationResult × AiCallInfo :=
  if ¬forceAi then
    match classifyByRules ch with
    | some r => (r, ⟨false, []⟩)
    | none => aiClassify env ch
  else
    aiClassify env ch

/-! ## The ingestion run loop (`ingest-channel.ts`)

The task body is embedded as a fueled state-transition function.  External
collaborators are oracle fields of `IngestEnv`; `clock` is `Date.now`
indexed by read count; `classify` abstracts `classifyChannel` (whose own
call-level behaviour is embedded above — at loop level only the produced
result matters).  A ghost `trace` of provider events is recorded, each
annotated with the result count and the last-observed elapsed time at the
moment of the call, so that stop-condition and deduplication properties can
be stated about what the run actually did. -/

/-- `{ids, nextPageToken}` from `searchChannelsByTopic` /
`fetchTrendingChannelIds`. -/
structure SearchRes where
  ids : List String
  nextPageToken : Option String
deriving Repr, DecidableEq

structure IngestEnv where
  /-- `Date.now()` by read index (read 0 is `startTime`). -/
  clock : ℕ → ℤ
  /-- `searchChannelsByTopic(keyword, 50, token, duration)`; `none` models a
  thrown error (caught per keyword).  The run's `duration` hint is folded
  into the oracle. -/
  search : String → Option String → Option SearchRes
  /-- `fetchTrendingChannelIds(undefined, 50, token)`; `none` models a throw. -/
  trending : Option String → Option SearchRes
  /-- membership in `getExistingChannelIds`' answer. -/
  existsInDb : String → Bool
  /-- the parsed channel record `fetchChannelMetadata` returns for an id, if
  any. -/
  meta : String → Option YouTubeChannel
  /-- `fetchRecentVideos(uploadsPlaylistId, 10)`. -/
  videos : String → List RawVideo
  /-- the result `classifyChannel(normalized)` settles with (it never
  throws: its own failures end in the fallback result). -/
  classify : NormalizedChannel → ClassificationResult

/-- The task payload (with its destructuring defaults). -/
structure RunPayload where
  seedChannelIds : List String := []
  keywords : List String := []
  minSubscribers : ℕ := 0
  minVideos : ℕ := 0
  targetCount : ℕ := 100
  forceFresh : Bool := false

/-- One row of the `results` array. -/
structure ResultRow where
  channelId : String
  title : String
  classification : String
  slopType : Option String
  confidence : ℚ
  method : String
deriving Repr, DecidableEq

def rowOf (c : ClassificationResult) : ResultRow :=
  { channelId := c.channelId, title := c.title, classification := c.classification,
    slopType := c.slopType, confidence := c.confidence, method := c.method }

/-- Ghost record of a provider call, annotated with `results.length` and the
elapsed time observed at the latest `Date.now()` read when it was issued. -/
inductive IngestEvent where
  | search (keyword : String) (token : Option String) (nres : ℕ) (elapsed : ℤ)
  | trending (token : Option String) (nres : ℕ) (elapsed : ℤ)
  | fetchMeta (ids : List String) (nres : ℕ) (elapsed : ℤ)
  | classified (channelId : String) (nres : ℕ) (elapsed : ℤ)
deriving Repr, DecidableEq

/-- JS `Set.add` on an insertion-ordered duplicate-free list. -/
def setAdd (l : List String) (x : String) : List String :=
  if x ∈ l then l else l ++ [x]

/-- `ids.forEach(id => { if (!visitedIds.has(id)) candidateQueue.add(id) })`. -/
def enqueueNew (visited queue ids : List String) : List String :=
  ids.foldl (fun q id => if id ∈ visited then q else setAdd q id) queue

/-- `keywordTokens[keyword] = tok` on a JS object (insertion-ordered keys). -/
def assocSet (m : List (String × Option String)) (k : String) (v : Option String) :
    List (String × Option String) :=
  if m.any (fun p => p.1 = k) then
    m.map (fun p => if p.1 = k then (k, v) else p)
  else
    m ++ [(k, v)]

/-- The run's mutable state. -/
structure RunState where
  results : List ResultRow
  visited : List String
  queue : List String
  keywordTokens : List (String × Option String)
  trendingToken : Option String
  skippedExisting : ℕ
  skippedLowSubs : ℕ
  skippedLowVideos : ℕ
  skippedLowVelocity : ℕ
  /-- start timestamp (`startTime = Date.now()`, clock read 0). -/
  startTime : ℤ
  /-- next `Date.now()` read index. -/
  clockIdx : ℕ
  /-- latest `Date.now()` value observed (ghost; initially `startTime`). -/
  lastNow : ℤ
  /-- ghost trace of provider calls. -/
  trace : List IngestEvent

/-- `shouldStop`: target reached, or (reading the clock) over the 9-minute
budget (`Date.now() - startTime > MAX_RUNTIME_MS`, strictly). -/
def shouldStopF (env : IngestEnv) (targetCount : ℕ) (s : RunState) : Bool × RunState :=
  if s.results.length ≥ targetCount then
    (true, s)
  else
    let now := env.clock s.clockIdx
    let s := { s with clockIdx := s.clockIdx + 1, lastNow := now }
    (decide (now - s.startTime > 540000), s)

/-- Elapsed time at the latest clock read. -/
def elapsedOf (s : RunState) : ℤ := s.lastNow - s.startTime

/-- Mode A: one keyword's page fetch inside the refill loop. -/
def refillKeyword (env : IngestEnv) (s : RunState) (kw : String) : RunState :=
  let tok := (s.keywordTokens.lookup kw).getD none
  let s := { s with trace := s.trace ++ [.search kw tok s.results.length (elapsedOf s)] }
  match env.search kw tok with
  | none => s  -- `catch (e) { console.error(...) }`: token and queue untouched
  | some res =>
    { s with queue := enqueueNew s.visited s.queue res.ids
             keywordTokens := assocSet s.keywordTokens kw res.nextPageToken }

/-- The refill step run when the candidate queue is empty: keyword search
pagination, else (no keywords and still empty) trending pagination. -/
def refill (env : IngestEnv) (p : RunPayload) (s : RunState) : RunState :=
  let s := if p.keywords ≠ [] then p.keywords.foldl (refillKeyword env) s else s
  if p.keywords = [] ∧ s.queue = [] then
    let s1 := { s with trace := s.trace ++ [.trending s.trendingToken s.results.length (elapsedOf s)] }
    match env.trending s.trendingToken with
    | none => s1
    | some res =>
      { s1 with queue := enqueueNew s1.visited s1.queue res.ids
                trendingToken := res.nextPageToken }
  else s

/-- The per-candidate body: preview-normalize with no videos, apply the
ordered pre-filters (min subscribers, min videos, velocity < 0.01), then
fetch recent videos, normalize fully, classify, persist and record the
result.  The surrounding `try`/`catch` never fires in the embedding because
every oracle is total. -/
def processOne (env : IngestEnv) (p : RunPayload) (ch : YouTubeChannel) (s : RunState) :
    RunState :=
  let now := env.clock s.clockIdx
  let s := { s with clockIdx := s.clockIdx + 1 }
  let preview := normalizeChannel ch [] none now
  if preview.subscriberCount < p.minSubscribers then
    { s with skippedLowSubs := s.skippedLowSubs + 1 }
  else if preview.videoCount < p.minVideos then
    { s with skippedLowVideos := s.skippedLowVideos + 1 }
  else if preview.velocity < 0.01 then
    { s with skippedLowVelocity := s.skippedLowVelocity + 1 }
  else
    let vids := match ch.uploads with
      | some pl => env.videos pl
      | none => []
    let latest := vids.head?.map (fun v => v.id)
    let now2 := env.clock s.clockIdx
    let s := { s with clockIdx := s.clockIdx + 1 }
    let normalized := normalizeChannel ch vids latest now2
    let c := env.classify normalized
    { s with trace := s.trace ++ [.classified c.channelId s.results.length (elapsedOf s)]
             results := s.results ++ [rowOf c] }

/--  `for (const channel of channels) { if (shouldStop()) break; ... }`. -/
def processChannels (env : IngestEnv) (p : RunPayload) :
    List YouTubeChannel → RunState → RunState
  | [], s => s
  | ch :: rest, s =>
    let check := shouldStopF env p.targetCount s
    if check.1 then check.2
    else processChannels env p rest (processOne env p ch check.2)

/-- The `while (!shouldStop())` loop, on fuel. -/
def runLoop (env : IngestEnv) (p : RunPayload) : ℕ → RunState → RunState
  | 0, s => s
  | fuel + 1, s =>
    let check := shouldStopF env p.targetCount s
    if check.1 then check.2
    else
      let s1 := check.2
      let s2 := if s1.queue.isEmpty then refill env p s1 else s1
      if s2.queue.isEmpty then s2  -- "No more candidates found. Stopping."
      else
        let batch := s2.queue.take 50
        let s3 := { s2 with queue := s2.queue.drop 50
                            visited := batch.foldl setAdd s2.visited }
        let filtered :=
          if ¬p.forceFresh then
            ((batch.filter (fun id => ¬env.existsInDb id)),
             { s3 with skippedExisting :=
                s3.skippedExisting + (batch.filter (fun id => env.existsInDb id)).length })
          else (batch, s3)
        let newIds := filtered.1
        let s4 := filtered.2
        if newIds.isEmpty then runLoop env p fuel s4  -- all duplicates, skip fetch
        else
          let s5 := { s4 with trace :=
            s4.trace ++ [.fetchMeta newIds s4.results.length (elapsedOf s4)] }
          let channels := newIds.filterMap env.meta
          runLoop env p fuel (processChannels env p channels s5)

/-- The state at run start (line 37–55 of the task body; `startTime` is
clock read 0). -/
def initState (env : IngestEnv) (p : RunPayload) : RunState :=
  { results := []
    visited := []
    queue := p.seedChannelIds.foldl setAdd []  -- `new Set(seedChannelIds)`
    keywordTokens := []
    trendingToken := none
    skippedExisting := 0
    skippedLowSubs := 0
    skippedLowVideos := 0
    skippedLowVelocity := 0
    startTime := env.clock 0
    clockIdx := 1
    lastNow := env.clock 0
    trace := [] }

/-- The returned summary and results (the trace is kept for specification). -/
structure RunOutput where
  total : ℕ
  slop : ℕ
  suspicious : ℕ
  okay : ℕ
  skippedExisting : ℕ
  skippedLowSubs : ℕ
  skippedLowVideos : ℕ
  skippedLowVelocity : ℕ
  results : List ResultRow
  trace : List IngestEvent

/-- The `ingest.channel` task body. -/
def ingestChannel (env : IngestEnv) (p : RunPayload) (fuel : ℕ) : RunOutput :=
  let s := runLoop env p fuel (initState env p)
  { total := s.results.length
    slop := (s.results.filter (fun r => r.classification = "SLOP")).length
    suspicious := (s.results.filter (fun r => r.classification = "SUSPICIOUS")).length
    okay := (s.results.filter (fun r => r.classification = "OKAY")).length
    skippedExisting := s.skippedExisting
    skippedLowSubs := s.skippedLowSubs
    skippedLowVideos := s.skippedLowVideos
    skippedLowVelocity := s.skippedLowVelocity
    results := s.results
    trace := s.trace }

/-! ## Normalizer guard theorems -/

/-- C6: for every raw channel record, recent-videos list (and clock reading),
`normalizeChannel` returns `ageInDays ≥ 1`, a subscriber count of at least 1,
and non-negative (hence finite, being rationals with denominators guarded to
≥ 1) `velocity`, `recentVelocity` and `viewsPerSub` — including when the
subscriber count is 0, the channel is younger than 14 days, or the video
list is empty. -/
theorem normalize_denominators_guarded (raw : YouTubeChannel) (videos : List RawVideo)
    (latest : Option String) (now : ℤ) :
    1 ≤ (normalizeChannel raw videos latest now).ageInDays ∧
    1 ≤ (normalizeChannel raw videos latest now).subscriberCount ∧
    0 ≤ (normalizeChannel raw videos latest now).velocity ∧
    0 ≤ (normalizeChannel raw videos latest now).recentVelocity ∧
    0 ≤ (normalizeChannel raw videos latest now).viewsPerSub := by
  refine ⟨?_, ?_, ?_, ?_, ?_⟩
  · simp only [normalizeChannel]
    exact le_max_left 1 _
  · simp only [normalizeChannel]
    split <;> omega
  · simp only [normalizeChannel]
    refine div_nonneg (by positivity) ?_
    have h : (1 : ℤ) ≤ max 1 (Int.fdiv (now - raw.publishedAtMs) 86400000) := le_max_left 1 _
    exact_mod_cast le_trans zero_le_one h
  · simp only [normalizeChannel]
    refine div_nonneg (by positivity) ?_
    have h : (1 : ℤ) ≤ max 1 (min (max 1 (Int.fdiv (now - raw.publishedAtMs) 86400000)) 14) :=
      le_max_left 1 _
    exact_mod_cast le_trans zero_le_one h
  · simp only [normalizeChannel]
    exact div_nonneg (by positivity) (by positivity)

/-- C9: when the raw subscriber-count statistic is 0 (as when the field is
missing and defaults to 0), the `NormalizedChannel` itself carries
`subscriberCount = 1` — so every consumer of the normalized record sees at
least 1 — and `viewsPerSub` then equals the raw view count. -/
theorem normalize_zero_subscribers (raw : YouTubeChannel) (videos : List RawVideo)
    (latest : Option String) (now : ℤ) (h : raw.subscriberCount = 0) :
    (normalizeChannel raw videos latest now).subscriberCount = 1 ∧
    (normalizeChannel raw videos latest now).viewsPerSub = (raw.viewCount : ℚ) ∧
    (∀ (raw2 : YouTubeChannel) (v2 : List RawVideo) (l2 : Option String) (n2 : ℤ),
      1 ≤ (normalizeChannel raw2 v2 l2 n2).subscriberCount) := by
  refine ⟨?_, ?_, ?_⟩
  · simp [normalizeChannel, h]
  · simp [normalizeChannel, h]
  · intro raw2 v2 l2 n2
    simp only [normalizeChannel]
    split <;> omega

/-- A raw channel whose subscriber statistic is absent/zero. -/
def rawZeroSubs : YouTubeChannel :=
  { id := "UCzero", title := "Zero Subs", description := "", publishedAtMs := 0,
    thumbnailUrl := none, categoryId := none, viewCount := 1234,
    subscriberCount := 0, videoCount := 7, uploads := none }

/-- Witness for C9 at a concrete zero-subscriber channel. -/
theorem normalize_zero_subscribers_witness :
    (normalizeChannel rawZeroSubs [] none 86400000).subscriberCount = 1 ∧
    (normalizeChannel rawZeroSubs [] none 86400000).viewsPerSub = (1234 : ℚ) ∧
    (∀ (raw2 : YouTubeChannel) (v2 : List RawVideo) (l2 : Option String) (n2 : ℤ),
      1 ≤ (normalizeChannel raw2 v2 l2 n2).subscriberCount) :=
  normalize_zero_subscribers rawZeroSubs [] none 86400000 rfl

/-! ## C1: the made-for-kids rule runs first -/

/-- C1: for every `NormalizedChannel` flagged `isMadeForKids`,
`classifyByRules` returns exactly the strict-exclusion result — SLOP, method
"rule", slop type `kids_content`, with the kids-content reason — regardless
of every other metric: the flag is tested before every other rule, so no
other rule's outcome is ever returned for such a channel. -/
theorem kids_flag_short_circuits_rules (ch : NormalizedChannel) (h : ch.isMadeForKids = true) :
    classifyByRules ch =
      some (ruleResult ch "SLOP" 95 90 (some "kids_content")
        ["Channel is marked as 'Made for Kids' (Strict Exclusion Rule)"]) ∧
    (classifyByRules ch).map (fun r => r.classification) = some "SLOP" ∧
    (classifyByRules ch).map (fun r => r.method) = some "rule" := by
  have hc : classifyByRules ch =
      some (ruleResult ch "SLOP" 95 90 (some "kids_content")
        ["Channel is marked as 'Made for Kids' (Strict Exclusion Rule)"]) := by
    simp [classifyByRules, h]
  exact ⟨hc, by simp [hc, ruleResult], by simp [hc, ruleResult]⟩

/-- A kids-flagged channel with otherwise "excellent" metrics. -/
def kidsChannel : NormalizedChannel :=
  { channelId := "UCkids", title := "Great Creator", description := "quality content",
    publishedAtMs := 0, thumbnailUrl := none, latestVideoId := none, categoryId := none,
    videoCount := 500, subscriberCount := 6000000, viewCount := 900000000,
    velocity := 1 / 10, recentVelocity := 1 / 10, ageInDays := 4000, viewsPerSub := 150,
    recentVideos := [], isMadeForKids := true }

/-- Witness for C1 at a concrete kids-flagged channel. -/
theorem kids_flag_short_circuits_rules_witness :
    classifyByRules kidsChannel =
      some (ruleResult kidsChannel "SLOP" 95 90 (some "kids_content")
        ["Channel is marked as 'Made for Kids' (Strict Exclusion Rule)"]) ∧
    (classifyByRules kidsChannel).map (fun r => r.classification) = some "SLOP" ∧
    (classifyByRules kidsChannel).map (fun r => r.method) = some "rule" :=
  kids_flag_short_circuits_rules kidsChannel rfl

/-! ## A concrete channel no rule matches (used below for AI-path claims) -/

def plainVideo : RecentVideo :=
  { id := "v1", title := "Gadget review episode one", publishedAtMs := 0,
    tags := some ["a", "b", "c", "d", "e"], duration := some "PT10M", viewCount := none }

def plainChannel : NormalizedChannel :=
  { channelId := "UCplain", title := "Tech Reviews", description := "reviews of gadgets",
    publishedAtMs := 0, thumbnailUrl := none, latestVideoId := none, categoryId := none,
    videoCount := 100, subscriberCount := 60000, viewCount := 60000,
    velocity := 1 / 10, recentVelocity := 1 / 10, ageInDays := 1000, viewsPerSub := 1,
    recentVideos := [plainVideo], isMadeForKids := false }

/-- No rule of the cascade fires on `plainChannel`, so `classifyChannel`
takes the AI slow path for it. -/
theorem plainRulesNone : classifyByRules plainChannel = none := by
  have htags : avgTags plainChannel = 5 := by
    simp [avgTags, plainChannel, plainVideo, jsDenom]
  have hdur : avgDurationSeconds plainChannel = 600 := by
    have h600 : videoDurationSeconds (some "PT10M") = 600 := by decide
    simp [avgDurationSeconds, plainChannel, plainVideo, jsDenom, h600]
  have harch : keywordHit plainChannel slopArchetypeKeywords = false := by decide
  have hspam : keywordHit plainChannel spamKeywords = false := by decide
  have halarm : keywordHit plainChannel alarmistKeywords = false := by decide
  have hhash : plainChannel.recentVideos.any (fun v => hashtagCount v.title ≥ 3) = false := by
    decide
  have hmovie : plainChannel.recentVideos.any (fun v => movieShowTest v.title) = false := by
    decide
  have hkids : plainChannel.isMadeForKids = false := rfl
  have hsubs : plainChannel.subscriberCount = 60000 := rfl
  have hvps : plainChannel.viewsPerSub = 1 := rfl
  have hage : plainChannel.ageInDays = 1000 := rfl
  have hvc : plainChannel.videoCount = 100 := rfl
  have hvel : plainChannel.velocity = 1 / 10 := rfl
  have hcat : plainChannel.categoryId = none := rfl
  norm_num [classifyByRules, htags, hdur, harch, hspam, halarm, hhash, hmovie,
    hkids, hsubs, hvps, hage, hvc, hvel, hcat]

/-! ## C2: retry bound and failure fallback -/

/-- C2: when every `generateContent` attempt fails with the same
rate-limit-like error, `retryWithBackoff` (maxRetries 3, baseDelay 2000)
sleeps exactly the three backoff delays 2000, 4000, 8000 ms — three retries
after the initial attempt — and `classifyChannel` returns (not raises) the
fixed fallback: SUSPICIOUS, confidence 50, slopScore 50, null slop type,
with a reason describing the failure.  A non-rate-limit failure propagates
after the single initial attempt, with no backoff delay, into the same
fallback. -/
theorem ai_rate_limit_retries_then_fallback
    (ch : NormalizedChannel) (env envP : AiEnv) (e eP : JsError)
    (hrule : classifyByRules ch = none)
    (hall : ∀ n, env.gen n = Except.error e) (hrl : isRateLimitErr e = true)
    (hone : envP.gen 0 = Except.error eP) (hnrl : isRateLimitErr eP = false) :
    classifyChannel env ch false = (aiFallback ch e.message, ⟨true, [2000, 4000, 8000]⟩) ∧
    classifyChannel envP ch false = (aiFallback ch eP.message, ⟨true, []⟩) ∧
    (aiFallback ch e.message).classification = "SUSPICIOUS" ∧
    (aiFallback ch e.message).confidence = 50 ∧
    (aiFallback ch e.message).slopScore = 50 ∧
    (aiFallback ch e.message).slopType = none := by
  have hretry : retryWithBackoff env.gen 3 2000 = (Except.error e, [2000, 4000, 8000]) := by
    simp [retryWithBackoff, retryAux, hall 0, hall 1, hall 2, hall 3, hrl]
  have hretryP : retryWithBackoff envP.gen 3 2000 = (Except.error eP, []) := by
    simp [retryWithBackoff, retryAux, hone, hnrl]
  refine ⟨?_, ?_, rfl, rfl, rfl, rfl⟩
  · simp [classifyChannel, hrule, aiClassify, hretry]
  · simp [classifyChannel, hrule, aiClassify, hretryP]

def rateLimitErr : JsError := { status := some 429, message := "quota exceeded" }

def permanentErr : JsError := { status := some 400, message := "bad request" }

def rateLimitEnv : AiEnv :=
  { gen := fun _ => Except.error rateLimitErr, jsonParse := fun _ => Except.error "SyntaxError" }

def permanentEnv : AiEnv :=
  { gen := fun _ => Except.error permanentErr, jsonParse := fun _ => Except.error "SyntaxError" }

/-- Witness for C2: a provider that always answers 429/"quota exceeded"
produces the fallback after delays 2s/4s/8s; a 400 produces it at once. -/
theorem ai_rate_limit_retries_then_fallback_witness :
    classifyChannel rateLimitEnv plainChannel false =
      (aiFallback plainChannel "quota exceeded", ⟨true, [2000, 4000, 8000]⟩) ∧
    classifyChannel permanentEnv plainChannel false =
      (aiFallback plainChannel "bad request", ⟨true, []⟩) := by
  have h := ai_rate_limit_retries_then_fallback plainChannel rateLimitEnv permanentEnv
    rateLimitErr permanentErr plainRulesNone (fun _ => rfl) (by decide) rfl (by decide)
  exact ⟨h.1, h.2.1⟩

/-! ## C3: score bounds (counterexample and what actually holds) -/

/-- A parsed model response carrying out-of-range scores — nothing in
`classifyChannel` clamps them. -/
def overParsed : ParsedAiResponse :=
  { classification := "OKAY", confidence := some 150, slopScore := some 150, slopType := none,
    reasoning := "r", nlpSignals := ⟨false, false, false, none⟩,
    behaviorSignals := ⟨false, false, false⟩ }

def overEnv : AiEnv :=
  { gen := fun _ => Except.ok "x", jsonParse := fun _ => Except.ok overParsed }

/-- C3 counterexample: with a successfully parsed AI response whose
confidence and slopScore are 150, `classifyChannel` returns a result with
confidence 150 and slopScore 150 — outside [0,100]; no clamping happens. -/
theorem scores_not_clamped_counterexample :
    (classifyChannel overEnv plainChannel false).1.confidence = 150 ∧
    ¬((classifyChannel overEnv plainChannel false).1.confidence ≤ 100) ∧
    (classifyChannel overEnv plainChannel false).1.slopScore = 150 := by
  have hr : retryWithBackoff overEnv.gen 3 2000 = (Except.ok "x", []) := by
    simp [retryWithBackoff, retryAux, overEnv]
  have hp : overEnv.jsonParse (jsTrim (stripFences "x")) = Except.ok overParsed := rfl
  have hc2 : classifyChannel overEnv plainChannel false =
      (aiSuccess plainChannel overParsed, ⟨true, []⟩) := by
    simp [classifyChannel, plainRulesNone, aiClassify, hr, hp]
  have hfl : ⌊(150 : ℚ) + 1 / 2⌋ = 150 := Int.floor_eq_iff.mpr (by norm_num)
  have h150 : rescaleTo100 (some 150) = 150 := by
    simp only [rescaleTo100, jsRound]
    rw [if_neg (by norm_num : ¬(150 : ℚ) ≤ 1), hfl]
    norm_num
  rw [hc2]
  refine ⟨?_, ?_, ?_⟩
  · simp [aiSuccess, overParsed, h150]
  · simp [aiSuccess, overParsed, h150]
    norm_num
  · simp [aiSuccess, overParsed, h150]

/-- Eliminator for one rule of the cascade: when an `if` returning `some x`
or falling through to `y` produced `some r`, either branch satisfies `P`. -/
theorem ite_some_elim {α : Type} {c : Prop} [Decidable c] {x : α} {y : Option α} {r : α}
    (h : (if c then some x else y) = some r) (P : α → Prop) (hx : P x)
    (hy : ∀ r2, y = some r2 → P r2) : P r := by
  by_cases hc : c
  · rw [if_pos hc] at h
    cases Option.some.inj h
    exact hx
  · rw [if_neg hc] at h
    exact hy r h

/-- `Math.round` maps [0,100] into [0,100]. -/
theorem jsRound_bounds (q : ℚ) (h0 : 0 ≤ q) (h1 : q ≤ 100) :
    0 ≤ ((jsRound q : ℤ) : ℚ) ∧ ((jsRound q : ℤ) : ℚ) ≤ 100 := by
  unfold jsRound
  constructor
  · have h : (0 : ℤ) ≤ ⌊q + 1 / 2⌋ := Int.le_floor.mpr (by push_cast; linarith)
    exact_mod_cast h
  · have h : ⌊q + 1 / 2⌋ < 101 := Int.floor_lt.mpr (by push_cast; linarith)
    have h2 : ⌊q + 1 / 2⌋ ≤ 100 := by omega
    exact_mod_cast h2

/-- The fraction rescale keeps values of [0,100] within [0,100]. -/
theorem rescaleTo100_bounds (o : Option ℚ) (h : ∀ v, o = some v → 0 ≤ v ∧ v ≤ 100) :
    0 ≤ rescaleTo100 o ∧ rescaleTo100 o ≤ 100 := by
  cases o with
  | none => simp [rescaleTo100]
  | some x =>
    obtain ⟨h0, h1⟩ := h x rfl
    simp only [rescaleTo100]
    split_ifs with hx
    · exact jsRound_bounds (x * 100) (by positivity) (by nlinarith)
    · exact jsRound_bounds x h0 h1

/-- confidence and slopScore both within [0,100]. -/
def scoreBounded (t : ClassificationResult) : Prop :=
  0 ≤ t.confidence ∧ t.confidence ≤ 100 ∧ 0 ≤ t.slopScore ∧ t.slopScore ≤ 100

set_option maxHeartbeats 1000000 in
/-- Every rule-branch result carries literal scores within [0,100]. -/
theorem classifyByRules_bounds (ch : NormalizedChannel) (r : ClassificationResult)
    (h : classifyByRules ch = some r) : scoreBounded r := by
  simp only [classifyByRules] at h
  refine ite_some_elim h scoreBounded ?_ (fun r1 h1 => ?_)
  · refine ⟨?_, ?_, ?_, ?_⟩ <;> norm_num [scoreBounded, ruleResult]
  refine ite_some_elim h1 scoreBounded ?_ (fun r2 h2 => ?_)
  · refine ⟨?_, ?_, ?_, ?_⟩ <;> norm_num [scoreBounded, ruleResult]
  refine ite_some_elim h2 scoreBounded ?_ (fun r3 h3 => ?_)
  · refine ⟨?_, ?_, ?_, ?_⟩ <;> norm_num [scoreBounded, ruleResult]
  refine ite_some_elim h3 scoreBounded ?_ (fun r4 h4 => ?_)
  · refine ⟨?_, ?_, ?_, ?_⟩ <;> norm_num [scoreBounded, ruleResult]
  refine ite_some_elim h4 scoreBounded ?_ (fun r5 h5 => ?_)
  · refine ⟨?_, ?_, ?_, ?_⟩ <;> norm_num [scoreBounded, ruleResult]
  refine ite_some_elim h5 scoreBounded ?_ (fun r6 h6 => ?_)
  · refine ⟨?_, ?_, ?_, ?_⟩ <;> norm_num [scoreBounded, ruleResult]
  refine ite_some_elim h6 scoreBounded ?_ (fun r7 h7 => ?_)
  · refine ⟨?_, ?_, ?_, ?_⟩ <;> norm_num [scoreBounded, ruleResult]
  refine ite_some_elim h7 scoreBounded ?_ (fun r8 h8 => ?_)
  · refine ⟨?_, ?_, ?_, ?_⟩ <;> norm_num [scoreBounded, ruleResult]
  refine ite_some_elim h8 scoreBounded ?_ (fun r9 h9 => ?_)
  · refine ⟨?_, ?_, ?_, ?_⟩ <;> norm_num [scoreBounded, ruleResult]
  refine ite_some_elim h9 scoreBounded ?_ (fun r10 h10 => ?_)
  · refine ⟨?_, ?_, ?_, ?_⟩ <;> norm_num [scoreBounded, ruleResult]
  refine ite_some_elim h10 scoreBounded ?_ (fun r11 h11 => ?_)
  · refine ⟨?_, ?_, ?_, ?_⟩ <;> norm_num [scoreBounded, ruleResult]
  refine ite_some_elim h11 scoreBounded ?_ (fun r12 h12 => ?_)
  · refine ⟨?_, ?_, ?_, ?_⟩ <;> norm_num [scoreBounded, ruleResult]
  exact Option.noConfusion h12

set_option maxHeartbeats 1000000 in
/-- The slow path keeps scores in [0,100] as long as the parsed values do. -/
theorem aiClassify_bounds (env : AiEnv) (ch : NormalizedChannel)
    (hp : ∀ s q, env.jsonParse s = Except.ok q →
      (∀ v, q.confidence = some v → 0 ≤ v ∧ v ≤ 100) ∧
      (∀ v, q.slopScore = some v → 0 ≤ v ∧ v ≤ 100)) :
    scoreBounded (aiClassify env ch).1 := by
  simp only [aiClassify]
  rcases hres : (retryWithBackoff env.gen 3 2000).1 with e | text
  · refine ⟨?_, ?_, ?_, ?_⟩ <;> norm_num [scoreBounded, aiFallback]
  · dsimp only
    rcases hpr : env.jsonParse (jsTrim (stripFences text)) with msg | q
    · refine ⟨?_, ?_, ?_, ?_⟩ <;> norm_num [scoreBounded, aiFallback]
    · obtain ⟨hcb, hsb⟩ := hp _ q hpr
      have b1 := rescaleTo100_bounds q.confidence hcb
      have b2 := rescaleTo100_bounds q.slopScore hsb
      exact ⟨b1.1, b1.2, b2.1, b2.2⟩

/-- C3 amended: every result produced by a rule match or by the failure
fallback has confidence and slopScore in [0,100]; an AI-parsed result has
them in [0,100] provided the parsed values (where present) lie in [0,100] —
the code never clamps, it only rescales fractional values. -/
theorem classification_scores_bounded (env : AiEnv) (ch : NormalizedChannel) (forceAi : Bool)
    (hp : ∀ s q, env.jsonParse s = Except.ok q →
      (∀ v, q.confidence = some v → 0 ≤ v ∧ v ≤ 100) ∧
      (∀ v, q.slopScore = some v → 0 ≤ v ∧ v ≤ 100)) :
    0 ≤ (classifyChannel env ch forceAi).1.confidence ∧
    (classifyChannel env ch forceAi).1.confidence ≤ 100 ∧
    0 ≤ (classifyChannel env ch forceAi).1.slopScore ∧
    (classifyChannel env ch forceAi).1.slopScore ≤ 100 := by
  unfold classifyChannel
  cases forceAi with
  | true => simpa using aiClassify_bounds env ch hp
  | false =>
    rcases hb : classifyByRules ch with _ | r
    · simpa [hb] using aiClassify_bounds env ch hp
    · simpa [hb] using classifyByRules_bounds ch r hb

/-- Witness for the amended C3 at a concrete channel and provider. -/
theorem classification_scores_bounded_witness :
    0 ≤ (classifyChannel rateLimitEnv plainChannel false).1.confidence ∧
    (classifyChannel rateLimitEnv plainChannel false).1.confidence ≤ 100 ∧
    0 ≤ (classifyChannel rateLimitEnv plainChannel false).1.slopScore ∧
    (classifyChannel rateLimitEnv plainChannel false).1.slopScore ≤ 100 :=
  classification_scores_bounded rateLimitEnv plainChannel false
    (by intro s q hq; exact absurd hq (by simp [rateLimitEnv]))

/-! ## C8: fraction rescaling of parsed AI scores -/

/-- C8: when the response text parses as JSON (after code-fence stripping
and trimming), a parsed confidence or slopScore value ≤ 1 is stored as
`round(value * 100)` — rescaled to the 0–100 range — while a parsed value
> 1 is stored as `round(value)` with its scale unchanged. -/
theorem ai_fraction_rescale (ch : NormalizedChannel) (env : AiEnv) (text : String)
    (p : ParsedAiResponse) (v w : ℚ)
    (hgen : env.gen 0 = Except.ok text)
    (hparse : env.jsonParse (jsTrim (stripFences text)) = Except.ok p)
    (hc : p.confidence = some v) (hs : p.slopScore = some w) :
    ((v ≤ 1 → (classifyChannel env ch true).1.confidence = ((jsRound (v * 100) : ℤ) : ℚ)) ∧
     (1 < v → (classifyChannel env ch true).1.confidence = ((jsRound v : ℤ) : ℚ)) ∧
     (w ≤ 1 → (classifyChannel env ch true).1.slopScore = ((jsRound (w * 100) : ℤ) : ℚ)) ∧
     (1 < w → (classifyChannel env ch true).1.slopScore = ((jsRound w : ℤ) : ℚ))) := by
  have hr : retryWithBackoff env.gen 3 2000 = (Except.ok text, []) := by
    simp [retryWithBackoff, retryAux, hgen]
  have hcc : classifyChannel env ch true = (aiSuccess ch p, ⟨true, []⟩) := by
    simp [classifyChannel, aiClassify, hr, hparse]
  refine ⟨fun hv => ?_, fun hv => ?_, fun hw => ?_, fun hw => ?_⟩
  · rw [hcc]
    simp [aiSuccess, rescaleTo100, hc, if_pos hv]
  · rw [hcc]
    simp [aiSuccess, rescaleTo100, hc, if_neg (not_le.mpr hv)]
  · rw [hcc]
    simp [aiSuccess, rescaleTo100, hs, if_pos hw]
  · rw [hcc]
    simp [aiSuccess, rescaleTo100, hs, if_neg (not_le.mpr hw)]

/-- A parsed response with a fractional confidence and a 0–100 slopScore. -/
def halfParsed : ParsedAiResponse :=
  { classification := "SUSPICIOUS", confidence := some (1 / 2), slopScore := some 80,
    slopType := none, reasoning := "r", nlpSignals := ⟨false, false, false, none⟩,
    behaviorSignals := ⟨false, false, false⟩ }

def halfEnv : AiEnv :=
  { gen := fun _ => Except.ok "x", jsonParse := fun _ => Except.ok halfParsed }

/-- Witness for C8: confidence 0.5 is stored as round(50), slopScore 80 as
round(80). -/
theorem ai_fraction_rescale_witness :
    ((1 : ℚ) / 2 ≤ 1) ∧
    (classifyChannel halfEnv plainChannel true).1.confidence =
      ((jsRound ((1 : ℚ) / 2 * 100) : ℤ) : ℚ) ∧
    (1 < (80 : ℚ)) ∧
    (classifyChannel halfEnv plainChannel true).1.slopScore = ((jsRound (80 : ℚ) : ℤ) : ℚ) := by
  have h := ai_fraction_rescale plainChannel halfEnv "x" halfParsed (1 / 2) 80 rfl rfl rfl rfl
  exact ⟨by norm_num, h.1 (by norm_num), by norm_num, h.2.2.2 (by norm_num)⟩

/-! ## C10: channels with no recent videos never reach the AI -/

/-- An `if` between `some` and a fallthrough is `isSome` whenever the
fallthrough is. -/
theorem isSome_ite_tail {α : Type} {c : Prop} [Decidable c] {x : α} {y : Option α}
    (hy : y.isSome = true) : (if c then some x else y).isSome = true := by
  split_ifs <;> simp [hy]

/-- An `if` between `some` and a fallthrough is `isSome` whenever its
condition holds. -/
theorem isSome_ite_pos {α : Type} {c : Prop} [Decidable c] {x : α} {y : Option α}
    (hc : c) : (if c then some x else y).isSome = true := by
  rw [if_pos hc]
  rfl

set_option maxHeartbeats 1000000 in
/-- C10: for every `NormalizedChannel` with an empty `recentVideos` list and
fewer than 500000 subscribers, `classifyByRules` returns a result (the
average tag count and average duration evaluate to 0, so at latest the
Shorts-Churner rule fires), and therefore `classifyChannel` (rules-first
mode) returns that rule result without invoking the AI provider. -/
theorem empty_videos_always_ruled (ch : NormalizedChannel)
    (h1 : ch.recentVideos = []) (h2 : ch.subscriberCount < 500000) :
    (classifyByRules ch).isSome = true ∧
    (∀ env : AiEnv, (classifyChannel env ch false).2.invoked = false ∧
      some (classifyChannel env ch false).1 = classifyByRules ch) := by
  have htags : avgTags ch = 0 := by
    simp [avgTags, h1, jsDenom]
  have hdur : avgDurationSeconds ch = 0 := by
    simp [avgDurationSeconds, h1, jsDenom]
  have hsome : (classifyByRules ch).isSome = true := by
    simp only [classifyByRules, htags, hdur]
    refine isSome_ite_tail ?_
    refine isSome_ite_tail ?_
    refine isSome_ite_tail ?_
    refine isSome_ite_tail ?_
    refine isSome_ite_tail ?_
    refine isSome_ite_tail ?_
    refine isSome_ite_tail ?_
    refine isSome_ite_tail ?_
    refine isSome_ite_tail ?_
    refine isSome_ite_tail ?_
    exact isSome_ite_pos ⟨by norm_num, by norm_num, h2⟩
  refine ⟨hsome, fun env => ?_⟩
  rcases hb : classifyByRules ch with _ | r
  · rw [hb] at hsome
    exact absurd hsome (by simp)
  · constructor <;> simp [classifyChannel, hb]

/-- A channel with no recent videos under the subscriber ceiling. -/
def emptyVideosChannel : NormalizedChannel :=
  { channelId := "UCempty", title := "Quiet Channel", description := "d",
    publishedAtMs := 0, thumbnailUrl := none, latestVideoId := none, categoryId := none,
    videoCount := 10, subscriberCount := 400000, viewCount := 1000,
    velocity := 1 / 10, recentVelocity := 0, ageInDays := 100, viewsPerSub := 1,
    recentVideos := [], isMadeForKids := false }

/-- Witness for C10 at a concrete channel with no recent videos. -/
theorem empty_videos_always_ruled_witness :
    (classifyByRules emptyVideosChannel).isSome = true ∧
    (classifyChannel rateLimitEnv emptyVideosChannel false).2.invoked = false := by
  have h := empty_videos_always_ruled emptyVideosChannel rfl (by decide)
  exact ⟨h.1, (h.2 rateLimitEnv).1⟩

/-! ## C7: ordered pre-filters -/

/-- C7: for a candidate that reaches the per-channel body, the pre-filters
run in the fixed order minimum subscribers, then minimum videos, then
minimum lifetime velocity (< 0.01/day); the first failing filter increments
exactly its own skip counter and leaves every other part of the state —
results, trace (so no video fetch, classification or persistence), queue,
visited set and the other counters — unchanged, before any later filter is
evaluated. -/
theorem prefilters_ordered (env : IngestEnv) (p : RunPayload) (ch : YouTubeChannel)
    (s : RunState) :
    ((normalizeChannel ch [] none (env.clock s.clockIdx)).subscriberCount < p.minSubscribers →
      processOne env p ch s =
        { s with clockIdx := s.clockIdx + 1, skippedLowSubs := s.skippedLowSubs + 1 }) ∧
    (¬((normalizeChannel ch [] none (env.clock s.clockIdx)).subscriberCount < p.minSubscribers) →
      (normalizeChannel ch [] none (env.clock s.clockIdx)).videoCount < p.minVideos →
      processOne env p ch s =
        { s with clockIdx := s.clockIdx + 1, skippedLowVideos := s.skippedLowVideos + 1 }) ∧
    (¬((normalizeChannel ch [] none (env.clock s.clockIdx)).subscriberCount < p.minSubscribers) →
      ¬((normalizeChannel ch [] none (env.clock s.clockIdx)).videoCount < p.minVideos) →
      (normalizeChannel ch [] none (env.clock s.clockIdx)).velocity < 0.01 →
      processOne env p ch s =
        { s with clockIdx := s.clockIdx + 1, skippedLowVelocity := s.skippedLowVelocity + 1 }) := by
  refine ⟨fun h1 => ?_, fun h1 h2 => ?_, fun h1 h2 h3 => ?_⟩
  · simp only [processOne]
    rw [if_pos h1]
  · simp only [processOne]
    rw [if_neg h1, if_pos h2]
  · simp only [processOne]
    rw [if_neg h1, if_neg h2, if_pos h3]

def filterEnv : IngestEnv :=
  { clock := fun _ => 0, search := fun _ _ => none, trending := fun _ => none,
    existsInDb := fun _ => false, meta := fun _ => none, videos := fun _ => [],
    classify := fun ch => aiFallback ch "e" }

def filterPayload : RunPayload :=
  { minSubscribers := 5000, minVideos := 10, targetCount := 10 }

def lowSubsRaw : YouTubeChannel :=
  { id := "UClow", title := "t", description := "", publishedAtMs := 0,
    thumbnailUrl := none, categoryId := none, viewCount := 10, subscriberCount := 2,
    videoCount := 3, uploads := none }

/-- Witness for C7: a 2-subscriber candidate under a 5000-subscriber
threshold increments exactly `skippedLowSubs`. -/
theorem prefilters_ordered_witness :
    ((normalizeChannel lowSubsRaw [] none
        (filterEnv.clock (initState filterEnv filterPayload).clockIdx)).subscriberCount <
      filterPayload.minSubscribers) ∧
    processOne filterEnv filterPayload lowSubsRaw (initState filterEnv filterPayload) =
      { initState filterEnv filterPayload with
        clockIdx := (initState filterEnv filterPayload).clockIdx + 1,
        skippedLowSubs := (initState filterEnv filterPayload).skippedLowSubs + 1 } := by
  have hlt : (normalizeChannel lowSubsRaw [] none
      (filterEnv.clock (initState filterEnv filterPayload).clockIdx)).subscriberCount <
      filterPayload.minSubscribers := by decide
  exact ⟨hlt,
    (prefilters_ordered filterEnv filterPayload lowSubsRaw
      (initState filterEnv filterPayload)).1 hlt⟩

/-! ## C4: single-run deduplication of metadata fetches -/

theorem mem_setAdd {l : List String} {x y : String} :
    y ∈ setAdd l x ↔ y ∈ l ∨ y = x := by
  unfold setAdd
  split_ifs with h
  · constructor
    · exact fun hy => Or.inl hy
    · rintro (hy | rfl)
      · exact hy
      · exact h
  · simp [List.mem_append]

theorem nodup_setAdd {l : List String} {x : String} (h : l.Nodup) : (setAdd l x).Nodup := by
  unfold setAdd
  split_ifs with hx
  · exact h
  · simp [List.nodup_append, h, hx]

theorem mem_foldl_setAdd (ids : List String) (l : List String) (y : String) :
    y ∈ ids.foldl setAdd l ↔ y ∈ l ∨ y ∈ ids := by
  induction ids generalizing l with
  | nil => simp
  | cons a as ih =>
    simp only [List.foldl_cons, ih, mem_setAdd, List.mem_cons]
    tauto

theorem nodup_foldl_setAdd (ids : List String) (l : List String) (h : l.Nodup) :
    (ids.foldl setAdd l).Nodup := by
  induction ids generalizing l with
  | nil => exact h
  | cons a as ih => exact ih _ (nodup_setAdd h)

theorem mem_enqueueNew (visited queue ids : List String) (y : String) :
    y ∈ enqueueNew visited queue ids ↔ y ∈ queue ∨ (y ∈ ids ∧ y ∉ visited) := by
  unfold enqueueNew
  induction ids generalizing queue with
  | nil => simp
  | cons a as ih =>
    dsimp only [List.foldl_cons]
    by_cases ha : a ∈ visited
    · rw [if_pos ha, ih]
      constructor
      · rintro (hq | hin)
        · exact Or.inl hq
        · exact Or.inr ⟨List.mem_cons_of_mem a hin.1, hin.2⟩
      · rintro (hq | ⟨hmem, hnv⟩)
        · exact Or.inl hq
        · rcases List.mem_cons.mp hmem with rfl | hmem2
          · exact absurd ha hnv
          · exact Or.inr ⟨hmem2, hnv⟩
    · rw [if_neg ha, ih]
      constructor
      · rintro (hq | hin)
        · rcases mem_setAdd.mp hq with hq2 | hya
          · exact Or.inl hq2
          · refine Or.inr ⟨?_, ?_⟩
            · rw [hya]
              exact List.mem_cons_self _ _
            · rw [hya]
              exact ha
        · exact Or.inr ⟨List.mem_cons_of_mem _ hin.1, hin.2⟩
      · rintro (hq | ⟨hmem, hnv⟩)
        · exact Or.inl (mem_setAdd.mpr (Or.inl hq))
        · rcases List.mem_cons.mp hmem with rfl | hmem2
          · exact Or.inl (mem_setAdd.mpr (Or.inr rfl))
          · exact Or.inr ⟨hmem2, hnv⟩

theorem nodup_enqueueNew (visited queue ids : List String) (h : queue.Nodup) :
    (enqueueNew visited queue ids).Nodup := by
  unfold enqueueNew
  induction ids generalizing queue with
  | nil => exact h
  | cons a as ih =>
    dsimp only [List.foldl_cons]
    by_cases ha : a ∈ visited
    · rw [if_pos ha]
      exact ih _ h
    · rw [if_neg ha]
      exact ih _ (nodup_setAdd h)

def fetchedIds (tr : List IngestEvent) : List String :=
  (tr.filterMap (fun e =>
    match e with
    | .fetchMeta ids _ _ => some ids
    | _ => none)).flatten

theorem fetchedIds_append (t1 t2 : List IngestEvent) :
    fetchedIds (t1 ++ t2) = fetchedIds t1 ++ fetchedIds t2 := by
  simp [fetchedIds, List.filterMap_append]

theorem fetchedIds_search (kw : String) (tok : Option String) (n : ℕ) (el : ℤ) :
    fetchedIds [.search kw tok n el] = [] := rfl

theorem fetchedIds_trending (tok : Option String) (n : ℕ) (el : ℤ) :
    fetchedIds [.trending tok n el] = [] := rfl

theorem fetchedIds_classified (id : String) (n : ℕ) (el : ℤ) :
    fetchedIds [.classified id n el] = [] := rfl

theorem fetchedIds_fetchMeta (ids : List String) (n : ℕ) (el : ℤ) :
    fetchedIds [.fetchMeta ids n el] = ids := by
  simp [fetchedIds]

def DedupInv (s : RunState) : Prop :=
  s.queue.Nodup ∧ s.visited.Nodup ∧
  (∀ x ∈ s.queue, x ∉ s.visited) ∧
  (fetchedIds s.trace).Nodup ∧
  (∀ x ∈ fetchedIds s.trace, x ∈ s.visited)

theorem shouldStopF_snd (env : IngestEnv) (t : ℕ) (s : RunState) :
    (shouldStopF env t s).2.queue = s.queue ∧
    (shouldStopF env t s).2.visited = s.visited ∧
    (shouldStopF env t s).2.trace = s.trace ∧
    (shouldStopF env t s).2.results = s.results ∧
    (shouldStopF env t s).2.startTime = s.startTime := by
  unfold shouldStopF
  split_ifs <;> exact ⟨rfl, rfl, rfl, rfl, rfl⟩

theorem dedupInv_shouldStop (env : IngestEnv) (t : ℕ) (s : RunState) (h : DedupInv s) :
    DedupInv (shouldStopF env t s).2 := by
  obtain ⟨h1, h2, h3, _, _⟩ := shouldStopF_snd env t s
  unfold DedupInv at h ⊢
  rw [h1, h2, h3]
  exact h

theorem dedupInv_refillKeyword (env : IngestEnv) (s : RunState) (kw : String)
    (h : DedupInv s) : DedupInv (refillKeyword env s kw) := by
  obtain ⟨hq, hv, hd, hf, hfs⟩ := h
  unfold refillKeyword
  dsimp only
  cases hsr : env.search kw ((s.keywordTokens.lookup kw).getD none) with
  | none =>
    exact ⟨hq, hv, hd, by simpa [fetchedIds_append, fetchedIds_search] using hf,
      by simpa [fetchedIds_append, fetchedIds_search] using hfs⟩
  | some res =>
    refine ⟨nodup_enqueueNew _ _ _ hq, hv, ?_, ?_, ?_⟩
    · intro x hx
      rcases (mem_enqueueNew _ _ _ x).mp hx with h1 | h2
      · exact hd x h1
      · exact h2.2
    · simpa [fetchedIds_append, fetchedIds_search] using hf
    · simpa [fetchedIds_append, fetchedIds_search] using hfs

theorem dedupInv_foldl_refillKeyword (env : IngestEnv) (ks : List String) :
    ∀ s : RunState, DedupInv s → DedupInv (ks.foldl (refillKeyword env) s) := by
  induction ks with
  | nil => exact fun s h => h
  | cons k ks ih =>
    intro s h
    exact ih _ (dedupInv_refillKeyword env s k h)

theorem dedupInv_refill (env : IngestEnv) (p : RunPayload) (s : RunState)
    (h : DedupInv s) : DedupInv (refill env p s) := by
  unfold refill
  have hfold : DedupInv (if p.keywords ≠ [] then p.keywords.foldl (refillKeyword env) s else s) := by
    split_ifs with hk
    · exact dedupInv_foldl_refillKeyword env p.keywords s h
    · exact h
  set s1 := if p.keywords ≠ [] then p.keywords.foldl (refillKeyword env) s else s with hs1
  obtain ⟨hq, hv, hd, hf, hfs⟩ := hfold
  dsimp only
  split_ifs with hcond
  · cases htr : env.trending s1.trendingToken with
    | none =>
      exact ⟨hq, hv, hd, by simpa [fetchedIds_append, fetchedIds_trending] using hf,
        by simpa [fetchedIds_append, fetchedIds_trending] using hfs⟩
    | some res =>
      refine ⟨nodup_enqueueNew _ _ _ hq, hv, ?_, ?_, ?_⟩
      · intro x hx
        rcases (mem_enqueueNew _ _ _ x).mp hx with h1 | h2
        · exact hd x h1
        · exact h2.2
      · simpa [fetchedIds_append, fetchedIds_trending] using hf
      · simpa [fetchedIds_append, fetchedIds_trending] using hfs
  · exact ⟨hq, hv, hd, hf, hfs⟩

theorem processOne_fields (env : IngestEnv) (p : RunPayload) (ch : YouTubeChannel)
    (s : RunState) :
    (processOne env p ch s).queue = s.queue ∧
    (processOne env p ch s).visited = s.visited ∧
    fetchedIds (processOne env p ch s).trace = fetchedIds s.trace ∧
    (processOne env p ch s).startTime = s.startTime := by
  unfold processOne
  dsimp only
  split_ifs <;>
    refine ⟨rfl, rfl, ?_, rfl⟩ <;>
    simp [fetchedIds_append, fetchedIds_classified]

theorem dedupInv_processOne (env : IngestEnv) (p : RunPayload) (ch : YouTubeChannel)
    (s : RunState) (h : DedupInv s) : DedupInv (processOne env p ch s) := by
  obtain ⟨h1, h2, h3, _⟩ := processOne_fields env p ch s
  unfold DedupInv at h ⊢
  rw [h1, h2, h3]
  exact h

theorem dedupInv_processChannels (env : IngestEnv) (p : RunPayload)
    (chs : List YouTubeChannel) :
    ∀ s : RunState, DedupInv s → DedupInv (processChannels env p chs s) := by
  induction chs with
  | nil => exact fun s h => h
  | cons ch rest ih =>
    intro s h
    rw [processChannels]
    by_cases hstop : (shouldStopF env p.targetCount s).1
    · simp only [hstop, if_true]
      exact dedupInv_shouldStop env p.targetCount s h
    · simp only [hstop, if_false]
      exact ih _ (dedupInv_processOne env p ch _ (dedupInv_shouldStop env p.targetCount s h))

theorem dedupInv_drain (s2 : RunState) (h2 : DedupInv s2) (newIds : List String)
    (hnodup : newIds.Nodup) (hsub : ∀ x ∈ newIds, x ∈ s2.queue.take 50)
    (res : List ResultRow) (kt : List (String × Option String)) (tt : Option String)
    (e1 e2 e3 e4 : ℕ) (st : ℤ) (ci : ℕ) (ln : ℤ) (tr : List IngestEvent)
    (htr : fetchedIds tr = fetchedIds s2.trace ∨
      fetchedIds tr = fetchedIds s2.trace ++ newIds) :
    DedupInv { results := res, visited := (s2.queue.take 50).foldl setAdd s2.visited,
               queue := s2.queue.drop 50, keywordTokens := kt, trendingToken := tt,
               skippedExisting := e1, skippedLowSubs := e2, skippedLowVideos := e3,
               skippedLowVelocity := e4, startTime := st, clockIdx := ci, lastNow := ln,
               trace := tr } := by
  obtain ⟨hq2, hv2, hd2, hf2, hfs2⟩ := h2
  have htake : ∀ x ∈ s2.queue.take 50, x ∈ s2.queue :=
    fun x hx => (List.take_sublist 50 s2.queue).subset hx
  have hdrop : ∀ x ∈ s2.queue.drop 50, x ∈ s2.queue :=
    fun x hx => (List.drop_sublist 50 s2.queue).subset hx
  have hdisj : List.Disjoint (s2.queue.take 50) (s2.queue.drop 50) :=
    List.disjoint_take_drop hq2 le_rfl
  have hnewNotVisited : ∀ x ∈ newIds, x ∉ s2.visited :=
    fun x hx => hd2 x (htake x (hsub x hx))
  refine ⟨?_, ?_, ?_, ?_, ?_⟩
  · exact List.Nodup.sublist (List.drop_sublist 50 s2.queue) hq2
  · exact nodup_foldl_setAdd _ _ hv2
  · intro x hx
    rw [mem_foldl_setAdd]
    rintro (hv | ht)
    · exact hd2 x (hdrop x hx) hv
    · exact hdisj ht hx
  · rcases htr with h | h
    · rw [h]
      exact hf2
    · rw [h]
      refine List.Nodup.append hf2 hnodup ?_
      intro x hx1 hx2
      exact hnewNotVisited x hx2 (hfs2 x hx1)
  · intro x hx
    rw [mem_foldl_setAdd]
    rcases htr with h | h
    · rw [h] at hx
      exact Or.inl (hfs2 x hx)
    · rw [h] at hx
      rcases List.mem_append.mp hx with h1 | h1
      · exact Or.inl (hfs2 x h1)
      · exact Or.inr (hsub x h1)

set_option maxHeartbeats 2000000 in
theorem dedupInv_runLoop (env : IngestEnv) (p : RunPayload) (fuel : ℕ) :
    ∀ s : RunState, DedupInv s → DedupInv (runLoop env p fuel s) := by
  induction fuel with
  | zero =>
    intro s h
    rw [runLoop]
    exact h
  | succ n ih =>
    intro s h
    rw [runLoop]
    dsimp only
    by_cases hstop : (shouldStopF env p.targetCount s).1 = true
    · rw [if_pos hstop]
      exact dedupInv_shouldStop env p.targetCount s h
    · rw [if_neg hstop]
      have h1 : DedupInv (shouldStopF env p.targetCount s).2 :=
        dedupInv_shouldStop env p.targetCount s h
      set s1 := (shouldStopF env p.targetCount s).2 with hs1
      set s2 := if s1.queue.isEmpty then refill env p s1 else s1 with hs2
      have h2 : DedupInv s2 := by
        rw [hs2]
        split_ifs with hq
        · exact dedupInv_refill env p s1 h1
        · exact h1
      by_cases h2e : s2.queue.isEmpty = true
      · rw [if_pos h2e]
        exact h2
      · rw [if_neg h2e]
        try dsimp only
        cases hffv : p.forceFresh with
        | false =>
          rw [if_pos (show ¬false = true by simp)]
          try dsimp only
          have hnodupF : ((s2.queue.take 50).filter (fun id => ¬env.existsInDb id)).Nodup :=
            List.Nodup.filter _ (List.Nodup.sublist (List.take_sublist 50 s2.queue) h2.1)
          have hsubF : ∀ x ∈ (s2.queue.take 50).filter (fun id => ¬env.existsInDb id),
              x ∈ s2.queue.take 50 :=
            fun x hx => List.mem_of_mem_filter hx
          by_cases hbe :
              ((s2.queue.take 50).filter (fun id => ¬env.existsInDb id)).isEmpty = true
          · rw [if_pos hbe]
            exact ih _ (dedupInv_drain s2 h2 [] List.nodup_nil (by simp) _ _ _ _ _ _ _ _ _ _ _
              (Or.inl rfl))
          · rw [if_neg hbe]
            refine ih _ (dedupInv_processChannels env p _ _ ?_)
            refine dedupInv_drain s2 h2 _ hnodupF hsubF _ _ _ _ _ _ _ _ _ _ _ ?_
            right
            rw [fetchedIds_append, fetchedIds_fetchMeta]
        | true =>
          rw [if_neg (show ¬(¬true = true) by simp)]
          try dsimp only
          have hnodupB : (s2.queue.take 50).Nodup :=
            List.Nodup.sublist (List.take_sublist 50 s2.queue) h2.1
          by_cases hbe : (s2.queue.take 50).isEmpty = true
          · rw [if_pos hbe]
            exact ih _ (dedupInv_drain s2 h2 [] List.nodup_nil (by simp) _ _ _ _ _ _ _ _ _ _ _
              (Or.inl rfl))
          · rw [if_neg hbe]
            refine ih _ (dedupInv_processChannels env p _ _ ?_)
            refine dedupInv_drain s2 h2 _ hnodupB (fun x hx => hx) _ _ _ _ _ _ _ _ _ _ _ ?_
            right
            rw [fetchedIds_append, fetchedIds_fetchMeta]

theorem refillKeyword_visited (env : IngestEnv) (s : RunState) (kw : String) :
    (refillKeyword env s kw).visited = s.visited := by
  unfold refillKeyword
  dsimp only
  cases env.search kw ((s.keywordTokens.lookup kw).getD none) <;> rfl

theorem foldl_refillKeyword_visited (env : IngestEnv) (ks : List String) :
    ∀ s : RunState, (ks.foldl (refillKeyword env) s).visited = s.visited := by
  induction ks with
  | nil => exact fun s => rfl
  | cons k ks ih =>
    intro s
    rw [List.foldl_cons, ih, refillKeyword_visited]

theorem refill_visited (env : IngestEnv) (p : RunPayload) (s : RunState) :
    (refill env p s).visited = s.visited := by
  unfold refill
  have hbase : (if p.keywords ≠ [] then p.keywords.foldl (refillKeyword env) s else s).visited
      = s.visited := by
    split_ifs with hk
    · exact foldl_refillKeyword_visited env p.keywords s
    · rfl
  set s1 := if p.keywords ≠ [] then p.keywords.foldl (refillKeyword env) s else s with hs1
  dsimp only
  split_ifs with hcond
  · cases env.trending s1.trendingToken <;> exact hbase
  · exact hbase

theorem processChannels_visited (env : IngestEnv) (p : RunPayload)
    (chs : List YouTubeChannel) :
    ∀ s : RunState, (processChannels env p chs s).visited = s.visited := by
  induction chs with
  | nil => exact fun s => rfl
  | cons ch rest ih =>
    intro s
    rw [processChannels]
    by_cases hstop : (shouldStopF env p.targetCount s).1 = true
    · rw [if_pos hstop]
      exact (shouldStopF_snd env p.targetCount s).2.1
    · rw [if_neg hstop, ih, (processOne_fields env p ch _).2.1,
        (shouldStopF_snd env p.targetCount s).2.1]

set_option maxHeartbeats 2000000 in
theorem visited_mono_runLoop (env : IngestEnv) (p : RunPayload) (fuel : ℕ) :
    ∀ s : RunState, s.visited ⊆ (runLoop env p fuel s).visited := by
  induction fuel with
  | zero =>
    intro s
    rw [runLoop]
    exact fun x hx => hx
  | succ n ih =>
    intro s
    rw [runLoop]
    dsimp only
    by_cases hstop : (shouldStopF env p.targetCount s).1 = true
    · rw [if_pos hstop, (shouldStopF_snd env p.targetCount s).2.1]
      exact fun x hx => hx
    · rw [if_neg hstop]
      set s1 := (shouldStopF env p.targetCount s).2 with hs1
      have hv1 : s1.visited = s.visited := (shouldStopF_snd env p.targetCount s).2.1
      set s2 := if s1.queue.isEmpty then refill env p s1 else s1 with hs2
      have hv2 : s2.visited = s.visited := by
        rw [hs2]
        split_ifs with hq
        · rw [refill_visited, hv1]
        · exact hv1
      by_cases h2e : s2.queue.isEmpty = true
      · rw [if_pos h2e, hv2]
        exact fun x hx => hx
      · rw [if_neg h2e]
        try dsimp only
        have hgrow : ∀ t : RunState, t.visited = (s2.queue.take 50).foldl setAdd s2.visited →
            s.visited ⊆ t.visited := by
          intro t ht x hx
          rw [ht, mem_foldl_setAdd]
          exact Or.inl (hv2 ▸ hx)
        cases hffv : p.forceFresh with
        | false =>
          rw [if_pos (show ¬false = true by simp)]
          try dsimp only
          by_cases hbe :
              ((s2.queue.take 50).filter (fun id => ¬env.existsInDb id)).isEmpty = true
          · rw [if_pos hbe]
            intro x hx
            refine ih _ ?_
            exact hgrow _ rfl hx
          · rw [if_neg hbe]
            intro x hx
            refine ih _ ?_
            rw [processChannels_visited]
            exact hgrow _ rfl hx
        | true =>
          rw [if_neg (show ¬(¬true = true) by simp)]
          try dsimp only
          by_cases hbe : (s2.queue.take 50).isEmpty = true
          · rw [if_pos hbe]
            intro x hx
            refine ih _ ?_
            exact hgrow _ rfl hx
          · rw [if_neg hbe]
            intro x hx
            refine ih _ ?_
            rw [processChannels_visited]
            exact hgrow _ rfl hx

theorem dedupInv_initState (env : IngestEnv) (p : RunPayload) :
    DedupInv (initState env p) := by
  refine ⟨nodup_foldl_setAdd _ _ List.nodup_nil, List.nodup_nil, ?_, List.nodup_nil, ?_⟩
  · intro x hx
    simp [initState]
  · intro x hx
    simp [initState, fetchedIds] at hx

/-- C4: within one run, no candidate id is included in a
`fetchChannelMetadata` call more than once, whatever the discovery oracles
return — the concatenation of all fetched batches is duplicate-free — and
the visited set grows monotonically (ids are never removed) across the
loop. -/
theorem dedup_no_repeated_fetch (env : IngestEnv) (p : RunPayload) (fuel : ℕ) :
    (fetchedIds (ingestChannel env p fuel).trace).Nodup ∧
    (∀ s : RunState, s.visited ⊆ (runLoop env p fuel s).visited) := by
  constructor
  · have h := dedupInv_runLoop env p fuel (initState env p) (dedupInv_initState env p)
    simpa [ingestChannel] using h.2.2.2.1
  · exact visited_mono_runLoop env p fuel

/-! ## C5: stop conditions bound the run -/

/-- The result-count annotation of a trace event. -/
def eventNres : IngestEvent → ℕ
  | .search _ _ n _ => n
  | .trending _ n _ => n
  | .fetchMeta _ n _ => n
  | .classified _ n _ => n

/-- The elapsed-time annotation of a trace event (from the latest
`Date.now()` read before the call was issued). -/
def eventElapsed : IngestEvent → ℤ
  | .search _ _ _ el => el
  | .trending _ _ el => el
  | .fetchMeta _ _ el => el
  | .classified _ _ el => el

def TraceInv (t : ℕ) (s : RunState) : Prop :=
  s.results.length ≤ t ∧
  ∀ e ∈ s.trace, eventNres e < t ∧ eventElapsed e ≤ 540000

theorem shouldStopF_false (env : IngestEnv) (t : ℕ) (s : RunState)
    (h : (shouldStopF env t s).1 = false) :
    (shouldStopF env t s).2.results.length < t ∧
    elapsedOf (shouldStopF env t s).2 ≤ 540000 := by
  unfold shouldStopF at h ⊢
  by_cases hlen : s.results.length ≥ t
  · rw [if_pos hlen] at h
    exact absurd h (by simp)
  · rw [if_neg hlen] at h ⊢
    dsimp only at h ⊢
    refine ⟨Nat.lt_of_not_le hlen, ?_⟩
    have hnp := of_decide_eq_false h
    unfold elapsedOf
    dsimp only
    omega

theorem traceInv_shouldStop (env : IngestEnv) (t : ℕ) (s : RunState) (h : TraceInv t s) :
    TraceInv t (shouldStopF env t s).2 := by
  obtain ⟨_, _, h3, h4, _⟩ := shouldStopF_snd env t s
  unfold TraceInv at h ⊢
  rw [h3, h4]
  exact h

theorem shouldStopF_elapsed_eq (env : IngestEnv) (t : ℕ) (s : RunState) :
    (shouldStopF env t s).2.startTime = s.startTime := by
  unfold shouldStopF
  split_ifs <;> rfl

theorem traceInv_refillKeyword (env : IngestEnv) (t : ℕ) (s : RunState) (kw : String)
    (h : TraceInv t s) (hres : s.results.length < t) (hel : elapsedOf s ≤ 540000) :
    TraceInv t (refillKeyword env s kw) ∧ (refillKeyword env s kw).results = s.results ∧
    elapsedOf (refillKeyword env s kw) = elapsedOf s := by
  obtain ⟨h1, h2⟩ := h
  unfold refillKeyword
  dsimp only
  have hev : ∀ e ∈ s.trace ++ [IngestEvent.search kw ((s.keywordTokens.lookup kw).getD none)
      s.results.length (elapsedOf s)], eventNres e < t ∧ eventElapsed e ≤ 540000 := by
    intro e he
    rcases List.mem_append.mp he with he1 | he2
    · exact h2 e he1
    · rcases List.mem_singleton.mp he2 with rfl
      exact ⟨hres, hel⟩
  cases env.search kw ((s.keywordTokens.lookup kw).getD none) with
  | none => exact ⟨⟨h1, hev⟩, rfl, rfl⟩
  | some res => exact ⟨⟨h1, hev⟩, rfl, rfl⟩

theorem traceInv_foldl_refillKeyword (env : IngestEnv) (t : ℕ) (ks : List String) :
    ∀ s : RunState, TraceInv t s → s.results.length < t → elapsedOf s ≤ 540000 →
    TraceInv t (ks.foldl (refillKeyword env) s) ∧
    (ks.foldl (refillKeyword env) s).results = s.results ∧
    elapsedOf (ks.foldl (refillKeyword env) s) = elapsedOf s := by
  induction ks with
  | nil => exact fun s h _ _ => ⟨h, rfl, rfl⟩
  | cons k ks ih =>
    intro s h hres hel
    rw [List.foldl_cons]
    obtain ⟨hI, hR, hE⟩ := traceInv_refillKeyword env t s k h hres hel
    obtain ⟨hI2, hR2, hE2⟩ := ih _ hI (by rw [hR]; exact hres) (by rw [hE]; exact hel)
    exact ⟨hI2, by rw [hR2, hR], by rw [hE2, hE]⟩

theorem traceInv_refill (env : IngestEnv) (p : RunPayload) (t : ℕ) (s : RunState)
    (h : TraceInv t s) (hres : s.results.length < t) (hel : elapsedOf s ≤ 540000) :
    TraceInv t (refill env p s) ∧ (refill env p s).results = s.results ∧
    elapsedOf (refill env p s) = elapsedOf s := by
  unfold refill
  have hfold := traceInv_foldl_refillKeyword env t p.keywords s h hres hel
  have hbase : TraceInv t (if p.keywords ≠ [] then p.keywords.foldl (refillKeyword env) s else s) ∧
      (if p.keywords ≠ [] then p.keywords.foldl (refillKeyword env) s else s).results = s.results ∧
      elapsedOf (if p.keywords ≠ [] then p.keywords.foldl (refillKeyword env) s else s) =
        elapsedOf s := by
    split_ifs with hk
    · exact hfold
    · exact ⟨h, rfl, rfl⟩
  set s1 := if p.keywords ≠ [] then p.keywords.foldl (refillKeyword env) s else s with hs1
  obtain ⟨⟨hI1, hT1⟩, hR1, hE1⟩ := hbase
  dsimp only
  have hev : ∀ e ∈ s1.trace ++ [IngestEvent.trending s1.trendingToken s1.results.length
      (elapsedOf s1)], eventNres e < t ∧ eventElapsed e ≤ 540000 := by
    intro e he
    rcases List.mem_append.mp he with he1 | he2
    · exact hT1 e he1
    · rcases List.mem_singleton.mp he2 with rfl
      refine ⟨?_, ?_⟩
      · simpa [eventNres, hR1] using hres
      · simpa [eventElapsed, hE1] using hel
  split_ifs with hcond
  · cases env.trending s1.trendingToken with
    | none => exact ⟨⟨hI1, hev⟩, hR1, hE1⟩
    | some res => exact ⟨⟨hI1, hev⟩, hR1, hE1⟩
  · exact ⟨⟨hI1, hT1⟩, hR1, hE1⟩

theorem traceInv_processOne (env : IngestEnv) (p : RunPayload) (t : ℕ) (ch : YouTubeChannel)
    (s : RunState) (h : TraceInv t s) (hres : s.results.length < t)
    (hel : elapsedOf s ≤ 540000) : TraceInv t (processOne env p ch s) := by
  obtain ⟨h1, h2⟩ := h
  unfold processOne
  dsimp only
  split_ifs with ha hb hc
  · exact ⟨h1, h2⟩
  · exact ⟨h1, h2⟩
  · exact ⟨h1, h2⟩
  · constructor
    · simpa using hres
    · intro e he
      rcases List.mem_append.mp he with he1 | he2
      · exact h2 e he1
      · rcases List.mem_singleton.mp he2 with rfl
        exact ⟨hres, hel⟩

theorem traceInv_processChannels (env : IngestEnv) (p : RunPayload)
    (chs : List YouTubeChannel) :
    ∀ s : RunState, TraceInv p.targetCount s →
    TraceInv p.targetCount (processChannels env p chs s) := by
  induction chs with
  | nil => exact fun s h => h
  | cons ch rest ih =>
    intro s h
    rw [processChannels]
    by_cases hstop : (shouldStopF env p.targetCount s).1 = true
    · rw [if_pos hstop]
      exact traceInv_shouldStop env p.targetCount s h
    · rw [if_neg hstop]
      obtain ⟨hres, hel⟩ := shouldStopF_false env p.targetCount s (by simpa using hstop)
      exact ih _ (traceInv_processOne env p p.targetCount ch _
        (traceInv_shouldStop env p.targetCount s h) hres hel)

set_option maxHeartbeats 2000000 in
theorem traceInv_runLoop (env : IngestEnv) (p : RunPayload) (fuel : ℕ) :
    ∀ s : RunState, TraceInv p.targetCount s →
    TraceInv p.targetCount (runLoop env p fuel s) := by
  induction fuel with
  | zero =>
    intro s h
    rw [runLoop]
    exact h
  | succ n ih =>
    intro s h
    rw [runLoop]
    dsimp only
    by_cases hstop : (shouldStopF env p.targetCount s).1 = true
    · rw [if_pos hstop]
      exact traceInv_shouldStop env p.targetCount s h
    · rw [if_neg hstop]
      obtain ⟨hres1, hel1⟩ := shouldStopF_false env p.targetCount s (by simpa using hstop)
      have hI1 : TraceInv p.targetCount (shouldStopF env p.targetCount s).2 :=
        traceInv_shouldStop env p.targetCount s h
      set s1 := (shouldStopF env p.targetCount s).2 with hs1
      have hpack : TraceInv p.targetCount (if s1.queue.isEmpty then refill env p s1 else s1) ∧
          (if s1.queue.isEmpty then refill env p s1 else s1).results = s1.results ∧
          elapsedOf (if s1.queue.isEmpty then refill env p s1 else s1) = elapsedOf s1 := by
        split_ifs with hq
        · exact traceInv_refill env p p.targetCount s1 hI1 hres1 hel1
        · exact ⟨hI1, rfl, rfl⟩
      set s2 := if s1.queue.isEmpty then refill env p s1 else s1 with hs2
      obtain ⟨hI2, hR2, hE2⟩ := hpack
      have hres2 : s2.results.length < p.targetCount := by
        rw [hR2]
        exact hres1
      have hel2 : elapsedOf s2 ≤ 540000 := by
        rw [hE2]
        exact hel1
      by_cases h2e : s2.queue.isEmpty = true
      · rw [if_pos h2e]
        exact hI2
      · rw [if_neg h2e]
        try dsimp only
        have hfetch : ∀ newIds : List String,
            TraceInv p.targetCount
              { results := s2.results,
                visited := (s2.queue.take 50).foldl setAdd s2.visited,
                queue := s2.queue.drop 50, keywordTokens := s2.keywordTokens,
                trendingToken := s2.trendingToken,
                skippedExisting := s2.skippedExisting +
                  ((s2.queue.take 50).filter (fun id => env.existsInDb id)).length,
                skippedLowSubs := s2.skippedLowSubs, skippedLowVideos := s2.skippedLowVideos,
                skippedLowVelocity := s2.skippedLowVelocity, startTime := s2.startTime,
                clockIdx := s2.clockIdx, lastNow := s2.lastNow,
                trace := s2.trace ++
                  [.fetchMeta newIds s2.results.length (s2.lastNow - s2.startTime)] } := by
          intro newIds
          refine ⟨hI2.1, ?_⟩
          intro e he
          rcases List.mem_append.mp he with he1 | he2
          · exact hI2.2 e he1
          · rcases List.mem_singleton.mp he2 with rfl
            exact ⟨hres2, hel2⟩
        have hfetch2 : ∀ newIds : List String,
            TraceInv p.targetCount
              { results := s2.results,
                visited := (s2.queue.take 50).foldl setAdd s2.visited,
                queue := s2.queue.drop 50, keywordTokens := s2.keywordTokens,
                trendingToken := s2.trendingToken,
                skippedExisting := s2.skippedExisting,
                skippedLowSubs := s2.skippedLowSubs, skippedLowVideos := s2.skippedLowVideos,
                skippedLowVelocity := s2.skippedLowVelocity, startTime := s2.startTime,
                clockIdx := s2.clockIdx, lastNow := s2.lastNow,
                trace := s2.trace ++
                  [.fetchMeta newIds s2.results.length (s2.lastNow - s2.startTime)] } := by
          intro newIds
          refine ⟨hI2.1, ?_⟩
          intro e he
          rcases List.mem_append.mp he with he1 | he2
          · exact hI2.2 e he1
          · rcases List.mem_singleton.mp he2 with rfl
            exact ⟨hres2, hel2⟩
        cases hffv : p.forceFresh with
        | false =>
          rw [if_pos (show ¬false = true by simp)]
          try dsimp only
          by_cases hbe :
              ((s2.queue.take 50).filter (fun id => ¬env.existsInDb id)).isEmpty = true
          · rw [if_pos hbe]
            exact ih _ ⟨hI2.1, hI2.2⟩
          · rw [if_neg hbe]
            exact ih _ (traceInv_processChannels env p _ _ (hfetch _))
        | true =>
          rw [if_neg (show ¬(¬true = true) by simp)]
          try dsimp only
          by_cases hbe : (s2.queue.take 50).isEmpty = true
          · rw [if_pos hbe]
            exact ih _ ⟨hI2.1, hI2.2⟩
          · rw [if_neg hbe]
            exact ih _ (traceInv_processChannels env p _ _ (hfetch2 _))

def boundaryEnv : IngestEnv :=
  { clock := fun n => if n = 0 then 0 else 540000, search := fun _ _ => none,
    trending := fun _ => none, existsInDb := fun _ => false, meta := fun _ => none,
    videos := fun _ => [], classify := fun ch => aiFallback ch "e" }

/-- C5 counterexample: when the elapsed wall time equals the 540000 ms
budget exactly — so the claimed stop condition "elapsed ≥ 540000 ms" holds —
`shouldStop` still returns false (the code compares with a strict `>`), and
the run continues. -/
theorem stop_boundary_counterexample :
    boundaryEnv.clock (initState boundaryEnv {}).clockIdx -
      (initState boundaryEnv {}).startTime ≥ 540000 ∧
    (shouldStopF boundaryEnv 100 (initState boundaryEnv {})).1 = false := by
  constructor
  · decide
  · decide

/-- C5 amended: the stop conditions (count ≥ target, or elapsed strictly
greater than the 540000 ms budget) are checked before every loop iteration
and before each candidate, so the summary total never exceeds `targetCount`,
and every discovery call, metadata fetch and classification is issued at a
moment when the accumulated result count is below `targetCount` and the last
observed elapsed time is at most 540000 ms. -/
theorem stop_conditions_bound_run (env : IngestEnv) (p : RunPayload) (fuel : ℕ) :
    (ingestChannel env p fuel).total ≤ p.targetCount ∧
    (∀ e ∈ (ingestChannel env p fuel).trace,
      eventNres e < p.targetCount ∧ eventElapsed e ≤ 540000) := by
  have hinit : TraceInv p.targetCount (initState env p) := by
    constructor
    · simp [initState]
    · intro e he
      simp [initState] at he
  have h := traceInv_runLoop env p fuel (initState env p) hinit
  constructor
  · simpa [ingestChannel] using h.1
  · simpa [ingestChannel] using h.2
